import Mathlib

/-!
Verification of the multi-source lookup orchestrator and scraper services
(`main.py`, `parsers/*.py`): a shallow embedding of the pure decision logic
of the Python source — identifier validation, task fan-out, result
aggregation, HTTP retry/poll loops, queue admission, record-store upsert
and audit diffing, per-scraper outer retry loops, and the service-gateway
response shapes — together with theorems settling the specification claims.
-/

namespace SberGenAI

/-! ## Python string primitives -/

/-- Python truthiness of a string: non-empty. -/
def present (s : String) : Bool := s != ""

/-- Python truthiness of `dict.get(key)`: the key is present with a non-empty value. -/
def optPresent (o : Option String) : Bool :=
  match o with
  | some s => present s
  | none => false

/-- Python regex `\s` (ASCII part, which is what these inputs can contain);
also used as the `str.split()` / `str.strip()` whitespace class. -/
def isPySpace (c : Char) : Bool :=
  c == ' ' || c == '\t' || c == '\n' || c == '\r' || c == '\x0b' || c == '\x0c'

/-- Split a character list at every separator position (keeping empty
pieces); the result is always non-empty. -/
def splitPred (p : Char → Bool) : List Char → List (List Char)
  | [] => [[]]
  | c :: rest =>
    if p c then [] :: splitPred p rest
    else
      match splitPred p rest with
      | [] => [[c]]
      | q :: qs => (c :: q) :: qs

/-- Python `str.split(sep)` for a one-character separator. -/
def pySplitOn (s : String) (sep : Char) : List String :=
  (splitPred (fun c => c == sep) s.toList).map (fun cs => ⟨cs⟩)

/-- Python `str.split()` with no argument: split on whitespace runs,
dropping empty pieces (used on `grz` in `main.py`). -/
def pySplit (s : String) : List String :=
  ((splitPred isPySpace s.toList).filter (fun cs => cs != [])).map (fun cs => ⟨cs⟩)

/-- Python `str.strip()`. -/
def pyStrip (s : String) : String :=
  ⟨((s.toList.dropWhile isPySpace).reverse.dropWhile isPySpace).reverse⟩

/-! ## Identifier validation (`validate_input`, main.py lines 448-464)

Each Python regex is fully anchored (`^...$`), so it is embedded as a direct
decidable predicate on the character list. -/

/-- Character class `[А-Я]` (Cyrillic capitals, U+0410–U+042F). -/
def isCyrUpper (c : Char) : Bool := 'А' ≤ c && c ≤ 'Я'

/-- Character class `[А-Яа-я]`. -/
def isCyrAny (c : Char) : Bool := isCyrUpper c || ('а' ≤ c && c ≤ 'я')

/-- Regex `^\d{10}$|^\d{12}$` — the tax-identifier (ИНН) shape. -/
def innOk (s : String) : Bool :=
  (s.length == 10 || s.length == 12) && s.toList.all Char.isDigit

/-- Character class `[A-Z0-9]`. -/
def isVinChar (c : Char) : Bool := ('A' ≤ c && c ≤ 'Z') || c.isDigit

/-- Regex `^[A-Z0-9]{17}$` — the VIN shape. -/
def vinOk (s : String) : Bool := s.length == 17 && s.toList.all isVinChar

/-- Character class `[А-Я0-9]`. -/
def stsClass (c : Char) : Bool := isCyrUpper c || c.isDigit

/-- Regex `^\d{2}[А-Я0-9]{2}\d{6}$` — the СТС document shape. -/
def stsOk (s : String) : Bool :=
  match s.toList with
  | [a, b, c, d, e, f, g, h, i, j] =>
    a.isDigit && b.isDigit && stsClass c && stsClass d &&
    e.isDigit && f.isDigit && g.isDigit && h.isDigit && i.isDigit && j.isDigit
  | _ => false

/-- Regex `^[А-Я]\d{3}[А-Я]{2}\s\d{2,3}$` — the ГРЗ plate shape. -/
def grzOk (s : String) : Bool :=
  match s.toList with
  | a :: b :: c :: d :: e :: f :: g :: rest =>
    isCyrUpper a && b.isDigit && c.isDigit && d.isDigit &&
    isCyrUpper e && isCyrUpper f && isPySpace g &&
    (match rest with
     | [x, y] => x.isDigit && y.isDigit
     | [x, y, z] => x.isDigit && y.isDigit && z.isDigit
     | _ => false)
  | _ => false

/-- Character class `[А-Яа-я\s-]` of the ФИО regex. -/
def fioClass (c : Char) : Bool := isCyrAny c || isPySpace c || c == '-'

/-- `t` matches `[А-Яа-я\s-]{2,}\s+[А-Яа-я\s-]+`.  Because `\s` is contained in
the bracket class, a match exists iff every character is in the class and some
whitespace character sits at an index `i` with `2 ≤ i` and at least one
character after it (take the first two pieces up to `i`, the single space at
`i`, and the remainder). -/
def fioCore (t : String) : Bool :=
  let cs := t.toList
  cs.all fioClass &&
  (List.range cs.length).any (fun i =>
    decide (2 ≤ i) && decide (i + 2 ≤ cs.length) && isPySpace (cs.getD i ' '))

/-- Regex `[0-3]\d\.[0-1]\d\.\d{4}` — the birth-date suffix of the ФИО regex. -/
def dateOk (d : String) : Bool :=
  match d.toList with
  | [a, b, c, e, f, g, h, i, j, k] =>
    ('0' ≤ a && a ≤ '3') && b.isDigit && c == '.' &&
    ('0' ≤ e && e ≤ '1') && f.isDigit && g == '.' &&
    h.isDigit && i.isDigit && j.isDigit && k.isDigit
  | _ => false

/-- Regex `^[А-Яа-я\s-]{2,}\s+[А-Яа-я\s-]+(?:;[0-3]\d\.[0-1]\d\.\d{4})?$`.
Neither the bracket class nor the date part may contain `;`, so a match splits
at the semicolons: zero semicolons means the core alone, one semicolon means
core then date, more can never match. -/
def fioOk (s : String) : Bool :=
  match pySplitOn s ';' with
  | [t] => fioCore t
  | [t, d] => fioCore t && dateOk d
  | _ => false

/-- The partially-populated input mapping handed to `validate_input`: a key is
`none` when absent from the Python dict (manual entry only carries the typed
keys; an Excel row carries all five, possibly as empty strings). -/
structure InputData where
  inn : Option String
  fio : Option String
  vin : Option String
  sts : Option String
  grz : Option String
deriving DecidableEq, Repr

/-- One field check of `validate_input`: skipped when the key is absent. -/
def checkField (v : Option String) (ok : String → Bool) (msg : String) : Option String :=
  match v with
  | none => none
  | some s => if ok s then none else some msg

/-- `validate_input` (main.py lines 448-464): `(is_valid, error_message)`. -/
def validateInput (d : InputData) : Bool × String :=
  match checkField d.inn innOk "ИНН должен содержать 10 или 12 цифр." with
  | some m => (false, m)
  | none =>
  match checkField d.fio fioOk "ФИО должно содержать минимум имя и фамилию, или ФИО;дата_рождения (например, Иванов Иван;01.01.1970)." with
  | some m => (false, m)
  | none =>
  match checkField d.vin vinOk ("VIN должен содержать ровно 17 символов (цифры и латинские). Получено: " ++ d.vin.getD "") with
  | some m => (false, m)
  | none =>
  match checkField d.sts stsOk "СТС должен быть в формате: (например, 99АА999999)." with
  | some m => (false, m)
  | none =>
  match checkField d.grz grzOk "ГРЗ должен быть в формате: буква, 3 цифры, 2 буквы, пробел, 2-3 цифры (например, А123БВ 777). Буквы кириллица" with
  | some m => (false, m)
  | none => (true, "")

/-! ## The Subject Query and the task fan-out
(`process_single_request` lines 689-727 and the identical block of
`process_excel_row` lines 128-167) -/

/-- The collected identifiers of one Subject Query (all five keys are read
with `data.get(key, "")`, so absence and the empty string coincide here). -/
structure Query where
  inn : String
  fio : String
  vin : String
  sts : String
  grz : String
deriving DecidableEq, Repr

/-- The payload of one service call. -/
inductive Payload
  | innP (inn : String)
  | vinP (vin : String)
  | finesP (regnum regreg stsnum : String)
  | probateP (name birthDate : String)
deriving DecidableEq, Repr

/-- One `fetch_service_data` task queued by the fan-out. -/
structure Task where
  service : String
  payload : Payload
deriving DecidableEq, Repr

/-- The concurrent task list built by `process_single_request` /
`process_excel_row`: VIN activates `gibdd_auto`, `osago`, `pledge`; a
two-part ГРЗ together with СТС activates `gibdd_fines`; ИНН activates
`efrsb`, `nalog`, `kad_arbitr`; ФИО activates `probate` (split on `;` into
name and birth date when it has exactly two parts). -/
def plannedTasks (q : Query) : List Task :=
  (if present q.vin then
    [⟨"gibdd_auto", .vinP q.vin⟩, ⟨"osago", .vinP q.vin⟩, ⟨"pledge", .vinP q.vin⟩]
   else []) ++
  (if present q.grz && present q.sts then
    (match pySplit q.grz with
     | [regnum, regreg] => [⟨"gibdd_fines", .finesP regnum regreg q.sts⟩]
     | _ => [])
   else []) ++
  (if present q.inn then
    [⟨"efrsb", .innP q.inn⟩, ⟨"nalog", .innP q.inn⟩, ⟨"kad_arbitr", .innP q.inn⟩]
   else []) ++
  (if present q.fio then
    (match pySplitOn q.fio ';' with
     | [name, birthDate] => [⟨"probate", .probateP (pyStrip name) (pyStrip birthDate)⟩]
     | _ => [⟨"probate", .probateP (pyStrip q.fio) ""⟩])
   else [])

/-- The three tax-identifier-keyed sources. -/
def innServices : List String := ["efrsb", "nalog", "kad_arbitr"]

/-- The three VIN-keyed sources. -/
def vinServices : List String := ["gibdd_auto", "osago", "pledge"]

/-- The services activated by the identifiers present in a query. -/
def activatedServices (q : Query) : List String :=
  (if present q.vin then vinServices else []) ++
  (if present q.grz && present q.sts then ["gibdd_fines"] else []) ++
  (if present q.inn then innServices else []) ++
  (if present q.fio then ["probate"] else [])

/-! ## Queue admission
(`process_collected_input` lines 638-663; Excel rows in `handle_message`
lines 1298-1323) -/

/-- One queued work item `(data, update, is_excel)`. -/
structure QueuedReq where
  data : InputData
  isExcel : Bool
deriving DecidableEq, Repr

/-- The reply sent back by a manual submission. -/
inductive SubmitOutcome
  | invalidInput (msg : String)
  | innRequired
  | queueFull
  | accepted (queueSize : Nat)
deriving DecidableEq, Repr

/-- `process_collected_input`: validate, require ИНН, reject when the queue
already holds 10, otherwise enqueue.  Returns the new queue and the reply;
every branch returns at once (the caller is never blocked on a slot). -/
def processCollectedInput (queue : List QueuedReq) (d : InputData) :
    List QueuedReq × SubmitOutcome :=
  match validateInput d with
  | (false, m) => (queue, .invalidInput m)
  | (true, _) =>
    if !optPresent d.inn then (queue, .innRequired)
    else if queue.length ≥ 10 then (queue, .queueFull)
    else (queue ++ [⟨d, false⟩], .accepted (queue.length + 1))

/-- The per-row outcome of the Excel bulk path. -/
inductive RowOutcome
  | invalidRow (msg : String)
  | queueFull
  | enqueued (queueSize : Nat)
deriving DecidableEq, Repr

/-- One Excel row as the dict built in `handle_message` lines 1299-1305:
all five keys present (empty string when the cell is blank). -/
def excelRowData (inn fio vin sts grz : String) : InputData :=
  ⟨some inn, some fio, some vin, some sts, some grz⟩

/-- The admission decision for one Excel row (`handle_message` lines
1307-1323): invalid rows are skipped with an error, a full queue rejects the
row immediately, otherwise it is enqueued. -/
def processExcelSubmit (queue : List QueuedReq) (row : InputData) :
    List QueuedReq × RowOutcome :=
  match validateInput row with
  | (false, m) => (queue, .invalidRow m)
  | (true, _) =>
    if queue.length ≥ 10 then (queue, .queueFull)
    else (queue ++ [⟨row, true⟩], .enqueued (queue.length + 1))

/-! ## Service response bodies and aggregation
(`process_single_request` lines 729-751 / `process_excel_row` lines 168-190) -/

/-- A parsed JSON response body, restricted to the keys the orchestrator
consults; `extra` stands opaquely for the rest of the source-specific
payload. -/
structure Dict where
  status : Option String
  message : Option String
  dataField : Option String
  retry : Bool
  extra : String
deriving DecidableEq, Repr

/-- A canonical serialization of a body (stands for `json.dumps` of a dict);
by construction it is never the empty string. -/
def encodeDict (d : Dict) : String :=
  let part := fun (k : String) (v : Option String) =>
    match v with
    | none => ""
    | some s => k ++ ":" ++ s ++ ";"
  "json[" ++ part "status" d.status ++ part "message" d.message ++
    part "data" d.dataField ++ (if d.retry then "retry;" else "") ++ d.extra ++ "]"

/-- One element of the list returned by
`asyncio.gather(*tasks, return_exceptions=True)`: either the dict a task
returned, or the exception object it raised (captured, not propagated). -/
inductive Outcome
  | ret (d : Dict)
  | exn (e : String)
deriving DecidableEq, Repr

/-- `json.dumps` applied to one gather outcome: a dict serializes; an
exception object is not JSON-serializable, so `json.dumps` raises
`TypeError` (modelled as `none`, which aborts the enclosing `try` block). -/
def pyDumps : Outcome → Option String
  | .ret d => some (encodeDict d)
  | .exn _ => none

/-- The `debtors` row being assembled and saved (`collected_data`). -/
structure Record where
  inn : String
  fio : String
  vin : String
  sts : String
  grz : String
  gibdd_auto : String
  gibdd_fines : String
  efrsb : String
  nsis : String
  reestr_zalogov : String
  notariat : String
  pb_nalog : String
  kad_arbitr : String
deriving DecidableEq, Repr

/-- The error placeholder written for a malformed two-part ГРЗ
(`json.dumps of status error / Неверный формат ГРЗ`). -/
def grzErrorDict : Dict :=
  { status := some "error", message := some "Неверный формат ГРЗ",
    dataField := none, retry := false, extra := "" }

/-- The condition under which a `gibdd_fines` task exists:
`grz and sts and len(grz.split()) == 2` (lines 136-144 / 697-705, rechecked
at line 740 before consuming its result). -/
def finesActive (q : Query) : Bool :=
  present q.grz && present q.sts && ((pySplit q.grz).length == 2)

/-- The condition for the ГРЗ-format error placeholder: ГРЗ and СТС are
present but ГРЗ does not split into exactly two parts. -/
def finesMalformed (q : Query) : Bool :=
  present q.grz && present q.sts && ((pySplit q.grz).length != 2)

/-- `collected_data` right after initialization (lines 673-687): identifiers
copied in, all source fields empty, except the ГРЗ-format error placeholder
substituted when ГРЗ and СТС are present but ГРЗ does not split in two. -/
def initRecord (q : Query) : Record :=
  { inn := q.inn, fio := q.fio, vin := q.vin, sts := q.sts, grz := q.grz,
    gibdd_auto := "",
    gibdd_fines := if finesMalformed q then encodeDict grzErrorDict else "",
    efrsb := "", nsis := "", reestr_zalogov := "", notariat := "",
    pb_nalog := "", kad_arbitr := "" }

/-- Consume the VIN group of gathered results (lines 735-739): serialize
three outcomes into `gibdd_auto`, `nsis`, `reestr_zalogov`; a captured
exception fails serialization and aborts. -/
def consumeVin (q : Query) (st : Record × List Outcome) :
    Option (Record × List Outcome) :=
  if present q.vin then
    match st.2 with
    | a :: n :: z :: rest =>
      match pyDumps a, pyDumps n, pyDumps z with
      | some sa, some sn, some sz =>
        some ({ st.1 with gibdd_auto := sa, nsis := sn, reestr_zalogov := sz }, rest)
      | _, _, _ => none
    | _ => none
  else some st

/-- Consume the fines group (lines 740-742). -/
def consumeFines (q : Query) (st : Record × List Outcome) :
    Option (Record × List Outcome) :=
  if finesActive q then
    match st.2 with
    | a :: rest =>
      match pyDumps a with
      | some sa => some ({ st.1 with gibdd_fines := sa }, rest)
      | none => none
    | _ => none
  else some st

/-- Consume the ИНН group (lines 743-747) into `efrsb`, `pb_nalog`,
`kad_arbitr`. -/
def consumeInn (q : Query) (st : Record × List Outcome) :
    Option (Record × List Outcome) :=
  if present q.inn then
    match st.2 with
    | a :: n :: k :: rest =>
      match pyDumps a, pyDumps n, pyDumps k with
      | some sa, some sn, some sk =>
        some ({ st.1 with efrsb := sa, pb_nalog := sn, kad_arbitr := sk }, rest)
      | _, _, _ => none
    | _ => none
  else some st

/-- Consume the ФИО group (lines 748-749) into `notariat`. -/
def consumeFio (q : Query) (st : Record × List Outcome) :
    Option (Record × List Outcome) :=
  if present q.fio then
    match st.2 with
    | a :: rest =>
      match pyDumps a with
      | some sa => some ({ st.1 with notariat := sa }, rest)
      | none => none
    | _ => none
  else some st

/-- The whole result-merge phase of `process_single_request` /
`process_excel_row`: positional consumption of the gathered outcomes in the
same group order the tasks were created.  `none` means the `try` block was
aborted by a raised serialization error, so `save_to_db` is never reached;
`some r` is the record handed to `save_to_db`. -/
def assemble (q : Query) (rs : List Outcome) : Option Record :=
  ((((consumeVin q (initRecord q, rs)).bind (consumeFines q)).bind
    (consumeInn q)).bind (consumeFio q)).map Prod.fst

/-- The record column each service's result is stored into. -/
def columnOfService (s : String) : String :=
  if s == "gibdd_auto" then "gibdd_auto"
  else if s == "osago" then "nsis"
  else if s == "pledge" then "reestr_zalogov"
  else if s == "gibdd_fines" then "gibdd_fines"
  else if s == "efrsb" then "efrsb"
  else if s == "nalog" then "pb_nalog"
  else if s == "kad_arbitr" then "kad_arbitr"
  else if s == "probate" then "notariat"
  else ""

/-- Reading a record field by column name. -/
def fieldVal (r : Record) (f : String) : String :=
  if f == "gibdd_auto" then r.gibdd_auto
  else if f == "gibdd_fines" then r.gibdd_fines
  else if f == "efrsb" then r.efrsb
  else if f == "nsis" then r.nsis
  else if f == "reestr_zalogov" then r.reestr_zalogov
  else if f == "notariat" then r.notariat
  else if f == "pb_nalog" then r.pb_nalog
  else if f == "kad_arbitr" then r.kad_arbitr
  else ""

/-- How many gathered results the VIN group occupies. -/
def vinGroupLen (q : Query) : Nat := if present q.vin then 3 else 0

/-- How many gathered results the fines group occupies. -/
def finesGroupLen (q : Query) : Nat := if finesActive q then 1 else 0

/-- How many gathered results the ИНН group occupies. -/
def innGroupLen (q : Query) : Nat := if present q.inn then 3 else 0

/-- How many gathered results the ФИО group occupies. -/
def fioGroupLen (q : Query) : Nat := if present q.fio then 1 else 0

/-- A throwaway body used only as the default of out-of-range `getD`
indexing in theorem statements. -/
def dummyDict : Dict :=
  { status := none, message := none, dataField := none, retry := false, extra := "" }

/-! ## The record store (`save_to_db`, `get_from_db`, `update_db_records`) -/

/-- `save_to_db` (lines 467-480): `INSERT OR REPLACE` on the `inn UNIQUE`
column — replace the row with the same ИНН when one exists, append
otherwise. -/
def saveToDb (db : List Record) (r : Record) : List Record :=
  if db.any (fun x => x.inn == r.inn) then
    db.map (fun x => if x.inn == r.inn then r else x)
  else db ++ [r]

/-- The all-empty default row `get_from_db` returns on a miss. -/
def emptyRecord : Record :=
  { inn := "", fio := "", vin := "", sts := "", grz := "", gibdd_auto := "",
    gibdd_fines := "", efrsb := "", nsis := "", reestr_zalogov := "",
    notariat := "", pb_nalog := "", kad_arbitr := "" }

/-- `get_from_db` (lines 491-504). -/
def getFromDb (db : List Record) (inn : String) : Record :=
  match db.find? (fun x => x.inn == inn) with
  | some r => r
  | none => emptyRecord

/-- The eight source columns diffed by `update_db_records` (lines 435-436). -/
def auditFields : List String :=
  ["gibdd_auto", "gibdd_fines", "efrsb", "nsis", "reestr_zalogov",
   "notariat", "pb_nalog", "kad_arbitr"]

/-- The `changes` mapping of `update_db_records`: for each audit field whose
stored and refreshed values differ, the pair of old and new value. -/
def diffChanges (old fresh : Record) : List (String × String × String) :=
  auditFields.filterMap (fun f =>
    if fieldVal old f != fieldVal fresh f then
      some (f, fieldVal old f, fieldVal fresh f)
    else none)

/-- The record store together with the `updates_log.txt` audit log. -/
structure Store where
  db : List Record
  log : List (String × List (String × String × String))
deriving DecidableEq, Repr

/-- Persistence of a manual (or Excel) lookup: `process_single_request` /
`process_excel_row` call only `save_to_db(collected_data)` — no diff and
no audit-log write on this path. -/
def manualSave (st : Store) (r : Record) : Store :=
  { st with db := saveToDb st.db r }

/-- One record's step of the scheduled daily refresh (`update_db_records`
lines 433-445): diff the freshly fetched data against the stored row; only
when some audit field changed, upsert the new row and append the change set
to the audit log. -/
def scheduledRefreshStep (st : Store) (inn : String) (fresh : Record) : Store :=
  let current := getFromDb st.db inn
  let changes := diffChanges current fresh
  if changes != [] then
    { db := saveToDb st.db fresh, log := st.log ++ [(inn, changes)] }
  else st

/-! ## `fetch_service_data` (main.py lines 285-361) -/

/-- The eight known services of `SERVICE_URLS`. -/
def serviceNames : List String :=
  ["gibdd_auto", "gibdd_fines", "efrsb", "kad_arbitr", "osago", "nalog",
   "pledge", "probate"]

/-- Per-attempt HTTP timeout: 120 s for the two asynchronous ГИБДД services,
30 s otherwise (line 293). -/
def perAttemptTimeout (service : String) : Nat :=
  if service == "gibdd_auto" || service == "gibdd_fines" then 120 else 30

/-- The "still processing" sentinel text checked at line 319. -/
def sentinelText : String := "Выполняется запрос, ждите..."

/-- Naive substring test (Python's `pat in s`). -/
def containsSub (s pat : String) : Bool :=
  (List.range (s.length + 1)).any
    (fun i => ((s.toList.drop i).take pat.length) == pat.toList)

/-- `data.get("status") in ["success", "error", "no_data"]` (line 343). -/
def isFinalStatus (d : Dict) : Bool :=
  match d.status with
  | some s => s == "success" || s == "error" || s == "no_data"
  | none => false

/-- The gibdd_auto retryable-error sniff of lines 328-333. -/
def isGibddRetryErr (d : Dict) : Bool :=
  d.status == some "error" &&
    (containsSub (d.message.getD "") "Timeout 10000ms exceeded" || d.retry)

/-- What one HTTP round-trip to the service produced, with the seconds it
took (each `session.post` is bounded by the per-attempt timeout). -/
inductive HttpEvent
  | ok (body : Dict) (dur : Nat)
  | badStatus (code : Nat) (dur : Nat)
  | badJson (dur : Nat)
  | netErr (msg : String) (dur : Nat)
deriving DecidableEq, Repr

/-- How `fetch_service_data` ended. -/
inductive FetchResult
  | final (body : Dict)
  | orchError (message : String)
  | raised
  | outOfTrace
deriving DecidableEq, Repr

/-- The observable footprint of one `fetch_service_data` call: its result,
how many HTTP requests it issued, and the elapsed seconds when it
returned. -/
structure FetchRun where
  result : FetchResult
  requests : Nat
  clock : Nat
deriving DecidableEq, Repr

/-- The `while attempt <= max_attempts` loop of `fetch_service_data`, driven
by a trace of HTTP events.  `clock` is the elapsed time since `start_time`;
sleeps of 5 s separate ordinary retries and `checkInterval` seconds separate
sentinel re-polls (which do not consume an attempt).  The loop can only exit
through one of its `return` statements, so the trace running dry is reported
as the model-level `outOfTrace`. -/
def fetchLoop (service : String) (maxAttempts checkInterval totalT : Nat) :
    Nat → Nat → Nat → List HttpEvent → FetchRun
  | _, clock, requests, [] => ⟨.outOfTrace, requests, clock⟩
  | attempt, clock, requests, e :: rest =>
    match e with
    | .badStatus code dur =>
      if attempt == maxAttempts then
        ⟨.orchError ("Ошибка " ++ toString code ++ " от сервиса " ++ service),
          requests + 1, clock + dur⟩
      else
        fetchLoop service maxAttempts checkInterval totalT
          (attempt + 1) (clock + dur + 5) (requests + 1) rest
    | .netErr msg dur =>
      if attempt == maxAttempts then
        ⟨.orchError ("Ошибка после " ++ toString maxAttempts ++ " попыток: " ++ msg),
          requests + 1, clock + dur⟩
      else
        fetchLoop service maxAttempts checkInterval totalT
          (attempt + 1) (clock + dur + 5) (requests + 1) rest
    | .badJson dur => ⟨.raised, requests + 1, clock + dur⟩
    | .ok body dur =>
      if (service == "gibdd_auto" || service == "gibdd_fines") &&
          body.dataField == some sentinelText then
        if totalT ≤ clock + dur then
          ⟨.orchError ("Превышен таймаут " ++ toString totalT ++ " секунд"),
            requests + 1, clock + dur⟩
        else
          fetchLoop service maxAttempts checkInterval totalT
            attempt (clock + dur + checkInterval) (requests + 1) rest
      else if service == "gibdd_auto" && isGibddRetryErr body then
        if totalT ≤ clock + dur then
          ⟨.orchError ("Превышен таймаут " ++ toString totalT ++ " секунд"),
            requests + 1, clock + dur⟩
        else
          fetchLoop service maxAttempts checkInterval totalT
            attempt (clock + dur + checkInterval) (requests + 1) rest
      else if isFinalStatus body then ⟨.final body, requests + 1, clock + dur⟩
      else if attempt == maxAttempts then
        ⟨.orchError ("Некорректный ответ от " ++ service), requests + 1, clock + dur⟩
      else
        fetchLoop service maxAttempts checkInterval totalT
          (attempt + 1) (clock + dur + 5) (requests + 1) rest

/-- `fetch_service_data` with its default `max_attempts=3`,
`check_interval=10`: unknown services return at once, otherwise the retry
loop runs with `total_timeout = timeout * max_attempts`. -/
def fetchServiceData (service : String) (trace : List HttpEvent) : FetchRun :=
  if serviceNames.contains service then
    fetchLoop service 3 10 (perAttemptTimeout service * 3) 1 0 0 trace
  else ⟨.orchError ("Неизвестный сервис: " ++ service), 0, 0⟩

/-! ## The ГИБДД scraper outer retry loops
(`get_gibdd_info`, gibdd_auto_parser.py lines 272-328;
`get_fines_info`, gibdd_fines_parser.py lines 369-442) -/

/-- The outcome of one navigate-and-search attempt (`page.goto` followed by
`perform_search`), abstracted to the fields the outer loop inspects:
the returned dict's `status`, `retry` flag and `message`, whether its
payload is non-empty, or an exception thrown during the attempt. -/
inductive SearchOut
  | res (status : String) (retryFlag : Bool) (hasData : Bool) (message : String)
  | thrown (e : String)
deriving DecidableEq, Repr

/-- A `success` / `no_data` / `error` status (every `perform_search` return
carries one of these). -/
def statusWellFormed : SearchOut → Bool
  | .res status _ _ _ => status == "success" || status == "error" || status == "no_data"
  | .thrown _ => true

/-- The `while attempt <= max_retries` loop of `get_gibdd_info`: one
`page.goto` per attempt on the SAME page object (created once, before the
loop).  Success requires a non-empty payload; a retryable failure consumes
an attempt; any other result breaks at once.  Returns the final
`(status, message)` (or `none` when the model trace runs dry) and the
number of `page.goto` calls. -/
def gibddAutoLoop (maxRetries : Nat) :
    Nat → Nat → List SearchOut → Option (String × String) × Nat
  | _, goCalls, [] => (none, goCalls)
  | attempt, goCalls, o :: rest =>
    match o with
    | .res status retryFlag hasData message =>
      if status == "success" && hasData then (some (status, message), goCalls + 1)
      else if retryFlag then
        if attempt == maxRetries then
          (some ("error", "Не удалось решить CAPTCHA после 4 попыток"), goCalls + 1)
        else gibddAutoLoop maxRetries (attempt + 1) (goCalls + 1) rest
      else (some (status, message), goCalls + 1)
    | .thrown _ =>
      if attempt == maxRetries then
        (some ("error", "Не удалось решить CAPTCHA после 4 попыток"), goCalls + 1)
      else gibddAutoLoop maxRetries (attempt + 1) (goCalls + 1) rest

/-- The observable footprint of one `get_gibdd_info` call. -/
structure GibddAutoRun where
  result : Option (String × String)
  gotoCalls : Nat
  pagesCreated : Nat
  browsersLaunched : Nat
deriving DecidableEq, Repr

/-- `get_gibdd_info`: the VIN is validated before any browser work (a
malformed VIN returns at once with zero attempts); otherwise exactly one
browser and exactly ONE page are created before the outer loop — every
retry re-navigates that same page rather than recreating it. -/
def getGibddInfo (vin : String) (trace : List SearchOut) : GibddAutoRun :=
  if !(vin.length == 17 && present vin && vin.toList.all Char.isAlphanum) then
    ⟨some ("error", "Недопустимый VIN"), 0, 0, 0⟩
  else
    let (r, gcs) := gibddAutoLoop 4 1 0 trace
    ⟨r, gcs, 1, 1⟩

/-- The `while attempt <= max_retries` loop of `get_fines_info`: unlike the
auto parser it opens a FRESH page at the top of every attempt (same single
browser), and success does not require a non-empty payload.  Returns the
final `(status, message)` and the number of pages created. -/
def gibddFinesLoop (maxRetries : Nat) :
    Nat → Nat → List SearchOut → Option (String × String) × Nat
  | _, pages, [] => (none, pages)
  | attempt, pages, o :: rest =>
    match o with
    | .res status retryFlag _ message =>
      if status == "success" then (some (status, message), pages + 1)
      else if retryFlag then
        if attempt == maxRetries then
          (some ("error", "Не удалось решить CAPTCHA после 4 попыток"), pages + 1)
        else gibddFinesLoop maxRetries (attempt + 1) (pages + 1) rest
      else (some (status, message), pages + 1)
    | .thrown _ =>
      if attempt == maxRetries then
        (some ("error", "Достигнуто максимальное количество попыток"), pages + 1)
      else gibddFinesLoop maxRetries (attempt + 1) (pages + 1) rest

/-- Regex `^[А-Я0-9]{6}$` — the госномер shape of `get_fines_info`. -/
def regnumOk (s : String) : Bool :=
  s.length == 6 && s.toList.all (fun c => isCyrUpper c || c.isDigit)

/-- Python `regreg.isdigit()`: non-empty and all digits. -/
def regregOk (s : String) : Bool := present s && s.toList.all Char.isDigit

/-- The observable footprint of one `get_fines_info` call. -/
structure GibddFinesRun where
  result : Option (String × String)
  pagesCreated : Nat
  browsersLaunched : Nat
deriving DecidableEq, Repr

/-- `get_fines_info`: the three identifiers are validated before any browser
work; a malformed one returns at once with zero attempts and zero pages. -/
def getFinesInfo (regnum regreg stsnum : String) (trace : List SearchOut) :
    GibddFinesRun :=
  if !regnumOk regnum then
    ⟨some ("error", "Неверный формат госномера (6 символов, буквы кириллица и цифры)"), 0, 0⟩
  else if !regregOk regreg then
    ⟨some ("error", "Неверный формат региона (только цифры)"), 0, 0⟩
  else if !stsOk stsnum then
    ⟨some ("error", "Неверный формат СТС (99АА999999)"), 0, 0⟩
  else
    let (r, pgs) := gibddFinesLoop 4 1 0 trace
    ⟨r, pgs, 1⟩

/-! ## The pb.nalog.ru scraper (`get_info_nalog`, pb_nalog_parser.py 30-187) -/

/-- What one attempt of the `for attempt in range(1, max_attempts + 1)` loop
of `get_info_nalog` observed. -/
inductive NalogObs
  | blankPage
  | emptyContent
  | rateLimited
  | noData
  | results (groupCount : Nat)
  | perr (e : String)
deriving DecidableEq, Repr

/-- How `get_info_nalog` ended. -/
inductive NalogRes
  | rateLimitError
  | success (groupCount : Nat)
  | attemptsError (lastError : String)
  | pageError (message : String)
  | modelExhausted
deriving DecidableEq, Repr

/-- The attempt loop of `get_info_nalog`: a blank page, empty content or a
Playwright error is retried (up to 3 attempts); the rate-limit alert
(`превысили`, checked both before and after the search) returns an error
IMMEDIATELY, with no further attempt; the no-data banner and an extracted
result set both return at once.  Also counts the attempts performed. -/
def nalogLoop (maxAttempts : Nat) : Nat → Nat → List NalogObs → NalogRes × Nat
  | _, used, [] => (.modelExhausted, used)
  | attempt, used, o :: rest =>
    match o with
    | .rateLimited =>
      (.rateLimitError, used + 1)
    | .noData => (.success 0, used + 1)
    | .results n => (.success n, used + 1)
    | .blankPage =>
      if attempt < maxAttempts then nalogLoop maxAttempts (attempt + 1) (used + 1) rest
      else (.pageError "Пустая страница, возможно, сбой браузера", used + 1)
    | .emptyContent =>
      if attempt < maxAttempts then nalogLoop maxAttempts (attempt + 1) (used + 1) rest
      else (.pageError "Пустое содержимое страницы", used + 1)
    | .perr e =>
      if attempt < maxAttempts then nalogLoop maxAttempts (attempt + 1) (used + 1) rest
      else (.attemptsError e, used + 1)

/-- `get_info_nalog` with its `max_attempts = 3`. -/
def getInfoNalog (trace : List NalogObs) : NalogRes × Nat :=
  nalogLoop 3 1 0 trace

/-- `is_valid_inn` of `nalog_endpoint` (regex `^\d{10}$|^\d{12}$` over a
truthy value). -/
def nalogEndpointInnOk (inn : Option String) : Bool :=
  optPresent inn && innOk (inn.getD "")

/-! ## The nsis.ru ОСАГО scraper (`attempt_osago_check` / `get_info_osago`,
nsis_parser.py 46-173) -/

/-- What one `attempt_osago_check` call observed. -/
inductive OsagoObs
  | rateLimited
  | notFound
  | errorModal
  | noExtract
  | policy
  | perr (e : String)
  | exn (e : String)
deriving DecidableEq, Repr

/-- How `get_info_osago` ended. -/
inductive OsagoRes
  | rateLimitError
  | successEmpty
  | successPolicy
  | attemptsError (e : String)
  | unknownError
  | modelExhausted
deriving DecidableEq, Repr

/-- `attempt_osago_check` returns `(result, can_retry)`: the rate-limit
block, the not-found modal and an extracted policy return with
`can_retry = False`; the error modal, a failed extraction and a Playwright
load error return with `can_retry = True`. -/
def attemptOsagoCanRetry : OsagoObs → Bool
  | .rateLimited => false
  | .notFound => false
  | .policy => false
  | .errorModal => true
  | .noExtract => true
  | .perr _ => true
  | .exn _ => true

/-- The `for attempt in range(1, max_attempts + 1)` loop of
`get_info_osago`: a non-retryable result is returned at once; retryable
results consume attempts until the loop falls through to the generic
error; an exception on the last attempt yields the after-N-attempts
error. -/
def osagoLoop (maxAttempts : Nat) (attempt used : Nat)
    (trace : List OsagoObs) : OsagoRes × Nat :=
  if maxAttempts < attempt then (.unknownError, used)
  else
    match trace with
    | [] => (.modelExhausted, used)
    | o :: rest =>
      match o with
      | .rateLimited => (.rateLimitError, used + 1)
      | .notFound => (.successEmpty, used + 1)
      | .policy => (.successPolicy, used + 1)
      | .errorModal => osagoLoop maxAttempts (attempt + 1) (used + 1) rest
      | .noExtract => osagoLoop maxAttempts (attempt + 1) (used + 1) rest
      | .perr _ => osagoLoop maxAttempts (attempt + 1) (used + 1) rest
      | .exn e =>
        if attempt < maxAttempts then osagoLoop maxAttempts (attempt + 1) (used + 1) rest
        else (.attemptsError e, used + 1)

/-- `get_info_osago` with its `max_attempts = 3`. -/
def getInfoOsago (trace : List OsagoObs) : OsagoRes × Nat :=
  osagoLoop 3 1 0 trace

/-- `is_valid_vin` of `osago_handler`: regex `^[A-HJ-NPR-Z0-9]{17}$`, case
insensitive, over a truthy value. -/
def osagoVinChar (c : Char) : Bool :=
  c.isDigit ||
  (('A' ≤ c.toUpper && c.toUpper ≤ 'Z') && c.toUpper != 'I' && c.toUpper != 'O' && c.toUpper != 'Q')

/-- `is_valid_vin` of `osago_handler`. -/
def osagoEndpointVinOk (vin : Option String) : Bool :=
  optPresent vin && (vin.getD "").length == 17 && (vin.getD "").toList.all osagoVinChar

/-! ## Service-gateway response shapes
(`probate_endpoint`, notariat_parser.py 148-186;
`gibdd_endpoint`, gibdd_auto_parser.py 330-339) -/

/-- A JSON object body abstracted to its key/value pairs (values flattened
to strings; for this analysis only the keys and the `status` value
matter). -/
def hasKey (b : List (String × String)) (k : String) : Bool :=
  b.any (fun p => p.1 == k)

/-- Lookup of a key in a body. -/
def keyVal (b : List (String × String)) (k : String) : Option String :=
  (b.find? (fun p => p.1 == k)).map Prod.snd

/-- Regex `^[\w\sа-яА-ЯёЁ-]+$` of `is_valid_name` (with `re.UNICODE`). -/
def probateNameOk (s : String) : Bool :=
  present s && s.toList.all (fun c =>
    c.isAlphanum || c == '_' || isPySpace c || isCyrAny c ||
    c == 'ё' || c == 'Ё' || c == '-')

/-- Regex `^\d{2}\.\d{2}\.\d{4}$` of `is_valid_birth_date`. -/
def probateBdOk (s : String) : Bool :=
  match s.toList with
  | [a, b, c, d, e, f, g, h, i, j] =>
    a.isDigit && b.isDigit && c == '.' && d.isDigit && e.isDigit &&
    f == '.' && g.isDigit && h.isDigit && i.isDigit && j.isDigit
  | _ => false

/-- The request body fields `probate_endpoint` reads. -/
structure ProbateReq where
  name : Option String
  birthDate : Option String
  cases : List (Option String × Option String)
deriving DecidableEq, Repr

/-- What the handler body produced once dispatched: the scrape's parsed JSON
(every `get_probate_case` return carries a `status` key), the parsed batch
results, or an exception caught by the handler's `except` clause. -/
inductive ProbateEval
  | ok (body : List (String × String))
  | batch (results : String)
  | raised (e : String)
deriving DecidableEq, Repr

/-- `probate_endpoint`: the single-case path replies 200 with the scrape's
JSON (500 on an exception, body keyed `error`); the batch path replies 400
on any invalid case and otherwise 200 with a body keyed `results`; missing
input replies 400 with a body keyed `error`.  Only the single-case 200 body
carries a `status` key. -/
def probateEndpoint (req : ProbateReq) (eval : ProbateEval) :
    Nat × List (String × String) :=
  if optPresent req.name && optPresent req.birthDate &&
      probateNameOk (req.name.getD "") && probateBdOk (req.birthDate.getD "") then
    match eval with
    | .ok body => (200, body)
    | .batch r => (200, [("results", r)])
    | .raised e => (500, [("error", e)])
  else if req.cases != [] then
    if req.cases.any (fun c =>
        !(optPresent c.1 && optPresent c.2 &&
          probateNameOk (c.1.getD "") && probateBdOk (c.2.getD ""))) then
      (400, [("error", "Неверный формат данных")])
    else
      match eval with
      | .ok body => (200, body)
      | .batch r => (200, [("results", r)])
      | .raised e => (500, [("error", "Ошибка обработки списка дел: " ++ e)])
  else (400, [("error", "Не указаны имя и дата рождения или список дел")])

/-- How the dispatch of `get_gibdd_info` inside `gibdd_endpoint` ends: either
the scraper returns its result dict (a status and a message), or an exception
escapes.  The latter is reachable: `get_gibdd_info`'s pre-loop browser
launch, `new_context(proxy=proxy_pool[0])` and `new_page`, and the
inter-attempt `wait_for_timeout`, all run outside any try/except. -/
inductive GibddDispatch
  | returned (scrapeStatus scrapeMessage : String)
  | raisedUnhandled
deriving DecidableEq, Repr

/-- `gibdd_endpoint`: a malformed VIN replies 400 with a status-carrying
JSON error body; a scraper result dict (status and message) is returned
verbatim as JSON with HTTP 200.  The handler has no exception guard of its
own, so an exception escaping `get_gibdd_info` propagates to Flask, whose
default error answer is HTTP 500 with an HTML page — no JSON body at all
(`none`). -/
def gibddEndpoint (vin : Option String) (d : GibddDispatch) :
    Nat × Option (List (String × String)) :=
  if !(optPresent vin && (vin.getD "").length == 17 &&
        (vin.getD "").toList.all Char.isAlphanum) then
    (400, some [("status", "error"),
           ("message", "Недопустимый VIN: должен быть 17 буквенно-цифровых символов")])
  else
    match d with
    | .returned scrapeStatus scrapeMessage =>
      (200, some [("status", scrapeStatus), ("message", scrapeMessage)])
    | .raisedUnhandled => (500, none)

/-! ## Measures used in theorem statements -/

/-- Budget check along a run of sentinel polls: every re-poll is taken only
while the elapsed clock is still below the ceiling, the clock advancing by
the request duration plus the 10-second poll interval. -/
def pollWithinBudget (totalT : Nat) : Nat → List (Dict × Nat) → Bool
  | _, [] => true
  | clock, p :: rest =>
    decide (clock + p.2 < totalT) && pollWithinBudget totalT (clock + p.2 + 10) rest

/-- The elapsed clock after a run of sentinel polls. -/
def pollClock (clock : Nat) (sens : List (Dict × Nat)) : Nat :=
  sens.foldl (fun c p => c + p.2 + 10) clock

/-- A `perform_search` outcome on which the outer loop of `get_gibdd_info`
retries: not a success-with-payload, and flagged retryable — or a thrown
exception. -/
def autoRetryable : SearchOut → Bool
  | .res status retryFlag hasData _ => !(status == "success" && hasData) && retryFlag
  | .thrown _ => true

/-- A `perform_search` outcome on which the outer loop of `get_gibdd_info`
stops at once, surfacing the result itself. -/
def autoStops : SearchOut → Bool
  | .res status retryFlag hasData _ => (status == "success" && hasData) || !retryFlag
  | .thrown _ => false

/-- A `perform_search` outcome on which the outer loop of `get_fines_info`
retries. -/
def finesRetryable : SearchOut → Bool
  | .res status retryFlag _ _ => !(status == "success") && retryFlag
  | .thrown _ => true

/-- A `perform_search` outcome on which the outer loop of `get_fines_info`
stops at once, surfacing the result itself. -/
def finesStops : SearchOut → Bool
  | .res status retryFlag _ _ => (status == "success") || !retryFlag
  | .thrown _ => false

/-- A `get_info_nalog` attempt observation its loop retries. -/
def nalogRetryable : NalogObs → Bool
  | .blankPage => true
  | .emptyContent => true
  | .perr _ => true
  | _ => false

/-- A `get_info_osago` attempt observation its loop retries
(`can_retry = True` or an in-loop exception). -/
def osagoRetryable : OsagoObs → Bool
  | .errorModal => true
  | .noExtract => true
  | .perr _ => true
  | .exn _ => true
  | _ => false

/-- The observable footprint of the single-ИНН path of `nalog_endpoint`. -/
structure NalogEndpointResp where
  httpStatus : Nat
  scrapeAttempts : Nat
  result : Option NalogRes
deriving DecidableEq, Repr

/-- The single-ИНН path of `nalog_endpoint` (pb_nalog_parser.py 199-228): an
invalid or missing ИНН is answered 400 before any scrape attempt; a valid
one runs `get_info_nalog` and returns its result with HTTP 200.  (The batch
`inns` path is outside the scope of the claims.) -/
def nalogEndpoint (inn : Option String) (trace : List NalogObs) :
    NalogEndpointResp :=
  if nalogEndpointInnOk inn then
    ⟨200, (getInfoNalog trace).2, some (getInfoNalog trace).1⟩
  else ⟨400, 0, none⟩

/-! ## Helper lemmas -/

theorem innOk_present {s : String} (h : innOk s = true) : present s = true := by
  have hne : s ≠ "" := by
    intro he
    rw [he] at h
    exact absurd h (by decide)
  simp [present, bne_iff_ne, hne]

theorem vinOk_present {s : String} (h : vinOk s = true) : present s = true := by
  have hne : s ≠ "" := by
    intro he
    rw [he] at h
    exact absurd h (by decide)
  simp [present, bne_iff_ne, hne]

theorem encodeDict_ne_empty (d : Dict) : encodeDict d ≠ "" := by
  intro h
  have h2 := congrArg String.length h
  simp only [encodeDict, String.length_append] at h2
  rw [show ("json[" : String).length = 5 from rfl,
    show ("]" : String).length = 1 from rfl,
    show ("" : String).length = 0 from rfl] at h2
  omega

theorem consumeVin_cons {q : Query} {r : Record} {d1 d2 d3 : Dict}
    {tl : List Outcome} (hv : present q.vin = true) :
    consumeVin q (r, .ret d1 :: .ret d2 :: .ret d3 :: tl) =
      some ({ r with
                gibdd_auto := encodeDict d1,
                nsis := encodeDict d2,
                reestr_zalogov := encodeDict d3 }, tl) := by
  simp [consumeVin, hv, pyDumps]

theorem consumeVin_skip {q : Query} {st : Record × List Outcome}
    (hv : present q.vin = false) : consumeVin q st = some st := by
  simp [consumeVin, hv]

theorem consumeFines_cons {q : Query} {r : Record} {d : Dict}
    {tl : List Outcome} (hfa : finesActive q = true) :
    consumeFines q (r, .ret d :: tl) =
      some ({ r with gibdd_fines := encodeDict d }, tl) := by
  simp [consumeFines, hfa, pyDumps]

theorem consumeFines_skip {q : Query} {st : Record × List Outcome}
    (hfa : finesActive q = false) : consumeFines q st = some st := by
  simp [consumeFines, hfa]

theorem consumeInn_cons {q : Query} {r : Record} {d1 d2 d3 : Dict}
    {tl : List Outcome} (hi : present q.inn = true) :
    consumeInn q (r, .ret d1 :: .ret d2 :: .ret d3 :: tl) =
      some ({ r with
                efrsb := encodeDict d1,
                pb_nalog := encodeDict d2,
                kad_arbitr := encodeDict d3 }, tl) := by
  simp [consumeInn, hi, pyDumps]

theorem consumeInn_skip {q : Query} {st : Record × List Outcome}
    (hi : present q.inn = false) : consumeInn q st = some st := by
  simp [consumeInn, hi]

theorem consumeFio_cons {q : Query} {r : Record} {d : Dict}
    {tl : List Outcome} (hf : present q.fio = true) :
    consumeFio q (r, .ret d :: tl) =
      some ({ r with notariat := encodeDict d }, tl) := by
  simp [consumeFio, hf, pyDumps]

theorem consumeFio_skip {q : Query} {st : Record × List Outcome}
    (hf : present q.fio = false) : consumeFio q st = some st := by
  simp [consumeFio, hf]

theorem plannedTasks_length (q : Query) :
    (plannedTasks q).length =
      vinGroupLen q + finesGroupLen q + innGroupLen q + fioGroupLen q := by
  unfold plannedTasks vinGroupLen finesGroupLen innGroupLen fioGroupLen finesActive
  cases hv : present q.vin <;>
    cases hgs : present q.grz && present q.sts <;>
    cases hi : present q.inn <;>
    cases hf : present q.fio <;>
    rcases hg : pySplit q.grz with _ | ⟨g1, _ | ⟨g2, _ | ⟨g3, gl⟩⟩⟩ <;>
    rcases hff : pySplitOn q.fio ';' with _ | ⟨f1, _ | ⟨f2, _ | ⟨f3, fl⟩⟩⟩ <;>
    simp

theorem consumeVin_spec {q : Query} {st out : Record × List Outcome}
    (h : consumeVin q st = some out) :
    out.1.gibdd_fines = st.1.gibdd_fines ∧ out.1.efrsb = st.1.efrsb ∧
    out.1.pb_nalog = st.1.pb_nalog ∧ out.1.kad_arbitr = st.1.kad_arbitr ∧
    out.1.notariat = st.1.notariat ∧
    (present q.vin = true →
      out.1.gibdd_auto ≠ "" ∧ out.1.nsis ≠ "" ∧ out.1.reestr_zalogov ≠ "") := by
  rcases st with ⟨r0, rs⟩
  cases hv : present q.vin
  · rw [consumeVin_skip hv] at h
    obtain rfl := Option.some.inj h
    simp
  · unfold consumeVin at h
    rw [if_pos hv] at h
    rcases rs with _ | ⟨a, _ | ⟨n, _ | ⟨z, rest⟩⟩⟩
    · simp at h
    · simp at h
    · simp at h
    · rcases a with da | ea <;> rcases n with dn | en <;> rcases z with dz | ez <;>
        simp [pyDumps] at h
      obtain rfl := h.symm
      simp [encodeDict_ne_empty]

theorem consumeFines_spec {q : Query} {st out : Record × List Outcome}
    (h : consumeFines q st = some out) :
    out.1.gibdd_auto = st.1.gibdd_auto ∧ out.1.nsis = st.1.nsis ∧
    out.1.reestr_zalogov = st.1.reestr_zalogov ∧ out.1.efrsb = st.1.efrsb ∧
    out.1.pb_nalog = st.1.pb_nalog ∧ out.1.kad_arbitr = st.1.kad_arbitr ∧
    out.1.notariat = st.1.notariat ∧
    (finesActive q = true → out.1.gibdd_fines ≠ "") ∧
    (finesActive q = false → out.1.gibdd_fines = st.1.gibdd_fines) := by
  rcases st with ⟨r0, rs⟩
  cases hfa : finesActive q
  · rw [consumeFines_skip hfa] at h
    obtain rfl := Option.some.inj h
    simp
  · unfold consumeFines at h
    rw [if_pos hfa] at h
    rcases rs with _ | ⟨a, rest⟩
    · simp at h
    · rcases a with da | ea <;> simp [pyDumps] at h
      obtain rfl := h.symm
      simp [encodeDict_ne_empty]

theorem consumeInn_spec {q : Query} {st out : Record × List Outcome}
    (h : consumeInn q st = some out) :
    out.1.gibdd_auto = st.1.gibdd_auto ∧ out.1.nsis = st.1.nsis ∧
    out.1.reestr_zalogov = st.1.reestr_zalogov ∧
    out.1.gibdd_fines = st.1.gibdd_fines ∧ out.1.notariat = st.1.notariat ∧
    (present q.inn = true →
      out.1.efrsb ≠ "" ∧ out.1.pb_nalog ≠ "" ∧ out.1.kad_arbitr ≠ "") := by
  rcases st with ⟨r0, rs⟩
  cases hi : present q.inn
  · rw [consumeInn_skip hi] at h
    obtain rfl := Option.some.inj h
    simp
  · unfold consumeInn at h
    rw [if_pos hi] at h
    rcases rs with _ | ⟨a, _ | ⟨n, _ | ⟨z, rest⟩⟩⟩
    · simp at h
    · simp at h
    · simp at h
    · rcases a with da | ea <;> rcases n with dn | en <;> rcases z with dz | ez <;>
        simp [pyDumps] at h
      obtain rfl := h.symm
      simp [encodeDict_ne_empty]

theorem consumeFio_spec {q : Query} {st out : Record × List Outcome}
    (h : consumeFio q st = some out) :
    out.1.gibdd_auto = st.1.gibdd_auto ∧ out.1.nsis = st.1.nsis ∧
    out.1.reestr_zalogov = st.1.reestr_zalogov ∧
    out.1.gibdd_fines = st.1.gibdd_fines ∧ out.1.efrsb = st.1.efrsb ∧
    out.1.pb_nalog = st.1.pb_nalog ∧ out.1.kad_arbitr = st.1.kad_arbitr ∧
    (present q.fio = true → out.1.notariat ≠ "") := by
  rcases st with ⟨r0, rs⟩
  cases hf : present q.fio
  · rw [consumeFio_skip hf] at h
    obtain rfl := Option.some.inj h
    simp
  · unfold consumeFio at h
    rw [if_pos hf] at h
    rcases rs with _ | ⟨a, rest⟩
    · simp at h
    · rcases a with da | ea <;> simp [pyDumps] at h
      obtain rfl := h.symm
      simp [encodeDict_ne_empty]

theorem initRecord_fines_malformed {q : Query} (h : finesMalformed q = true) :
    (initRecord q).gibdd_fines = encodeDict grzErrorDict := by
  simp [initRecord, h]

theorem find?_replace (db : List Record) (r : Record)
    (h : db.any (fun x => x.inn == r.inn) = true) :
    (db.map (fun x => if x.inn == r.inn then r else x)).find?
      (fun x => x.inn == r.inn) = some r := by
  induction db with
  | nil => simp at h
  | cons x xs ih =>
    simp only [List.map_cons]
    by_cases hx : (x.inn == r.inn) = true
    · rw [if_pos hx, List.find?_cons_of_pos _ (by simp)]
    · rw [if_neg hx, List.find?_cons_of_neg _ (by simpa using hx)]
      exact ih (by simpa [hx] using h)

theorem countP_replace (db : List Record) (r : Record) :
    ((db.map (fun x => if x.inn == r.inn then r else x)).countP
        (fun x => x.inn == r.inn)) =
      db.countP (fun x => x.inn == r.inn) := by
  induction db with
  | nil => rfl
  | cons x xs ih =>
    simp only [List.map_cons, List.countP_cons]
    by_cases hx : (x.inn == r.inn) = true
    · rw [if_pos hx, ih]
      simp [hx]
    · rw [if_neg hx, ih]

theorem fetchLoop_sentinel_run (svc : String)
    (hsvc : (svc == "gibdd_auto" || svc == "gibdd_fines") = true)
    (totalT : Nat) (fin : Dict) (fdur : Nat)
    (hfs : fin.status = some "success") (hfd : fin.dataField ≠ some sentinelText) :
    ∀ (sens : List (Dict × Nat)) (attempt clock requests : Nat),
      (∀ p ∈ sens, p.1.dataField = some sentinelText) →
      pollWithinBudget totalT clock sens = true →
      fetchLoop svc 3 10 totalT attempt clock requests
          (sens.map (fun p => HttpEvent.ok p.1 p.2) ++ [HttpEvent.ok fin fdur]) =
        ⟨.final fin, requests + sens.length + 1, pollClock clock sens + fdur⟩ := by
  intro sens
  induction sens with
  | nil =>
    intro attempt clock requests _ _
    simp only [List.map_nil, List.nil_append]
    have h1 : (fin.dataField == some sentinelText) = false :=
      beq_eq_false_iff_ne.mpr hfd
    simp [fetchLoop, h1, isGibddRetryErr, isFinalStatus, hfs, pollClock]
  | cons p rest ih =>
    intro attempt clock requests hsen hbud
    simp only [List.map_cons, List.cons_append]
    have hps : p.1.dataField = some sentinelText := hsen p (by simp)
    simp only [pollWithinBudget, Bool.and_eq_true, decide_eq_true_eq] at hbud
    have hlt : ¬(totalT ≤ clock + p.2) := by omega
    simp only [fetchLoop, hsvc, hps, Bool.true_and, beq_self_eq_true, if_true,
      if_neg hlt]
    rw [ih attempt (clock + p.2 + 10) (requests + 1)
      (fun x hx => hsen x (by simp [hx])) hbud.2]
    simp only [pollClock, List.foldl_cons, List.length_cons, FetchRun.mk.injEq,
      true_and, and_true]
    omega

theorem fetchLoop_sentinel_timeout (svc : String)
    (hsvc : (svc == "gibdd_auto" || svc == "gibdd_fines") = true)
    (totalT : Nat) (p : Dict × Nat) (rest : List HttpEvent)
    (hp : p.1.dataField = some sentinelText) :
    ∀ (sens : List (Dict × Nat)) (attempt clock requests : Nat),
      (∀ x ∈ sens, x.1.dataField = some sentinelText) →
      pollWithinBudget totalT clock sens = true →
      totalT ≤ pollClock clock sens + p.2 →
      fetchLoop svc 3 10 totalT attempt clock requests
          (sens.map (fun x => HttpEvent.ok x.1 x.2) ++ HttpEvent.ok p.1 p.2 :: rest) =
        ⟨.orchError ("Превышен таймаут " ++ toString totalT ++ " секунд"),
          requests + sens.length + 1, pollClock clock sens + p.2⟩ := by
  intro sens
  induction sens with
  | nil =>
    intro attempt clock requests _ _ htime
    simp only [pollClock, List.foldl_nil] at htime
    simp only [List.map_nil, List.nil_append]
    simp [fetchLoop, hsvc, hp, htime, pollClock]
  | cons x xs ih =>
    intro attempt clock requests hsen hbud htime
    simp only [List.map_cons, List.cons_append]
    have hxs : x.1.dataField = some sentinelText := hsen x (by simp)
    simp only [pollWithinBudget, Bool.and_eq_true, decide_eq_true_eq] at hbud
    have hlt : ¬(totalT ≤ clock + x.2) := by omega
    simp only [fetchLoop, hsvc, hxs, Bool.true_and, beq_self_eq_true, if_true,
      if_neg hlt]
    rw [ih attempt (clock + x.2 + 10) (requests + 1)
      (fun y hy => hsen y (by simp [hy])) hbud.2
      (by simpa [pollClock, List.foldl_cons] using htime)]
    simp only [pollClock, List.foldl_cons, List.length_cons, FetchRun.mk.injEq,
      true_and, and_true]
    omega

theorem gibddAutoLoop_stops :
    ∀ (pre : List SearchOut) (attempt goCalls : Nat) (status message : String)
      (retryFlag hasData : Bool) (rest : List SearchOut),
      (∀ x ∈ pre, autoRetryable x = true) →
      attempt + pre.length ≤ 4 →
      autoStops (.res status retryFlag hasData message) = true →
      gibddAutoLoop 4 attempt goCalls
          (pre ++ .res status retryFlag hasData message :: rest) =
        (some (status, message), goCalls + pre.length + 1) := by
  intro pre
  induction pre with
  | nil =>
    intro attempt goCalls status message retryFlag hasData rest _ _ hstop
    simp only [List.nil_append, List.length_nil, Nat.add_zero]
    by_cases hs : (status == "success" && hasData) = true
    · simp [gibddAutoLoop, hs] <;> omega
    · have hr : retryFlag = false := by
        simp only [autoStops, hs, Bool.false_or] at hstop
        simpa using hstop
      simp [gibddAutoLoop, hs, hr]
  | cons x xs ih =>
    intro attempt goCalls status message retryFlag hasData rest hpre hbound hstop
    have hx := hpre x (by simp)
    have hne : (attempt == 4) = false := by
      have h2 : attempt + (xs.length + 1) ≤ 4 := by simpa using hbound
      exact beq_eq_false_iff_ne.mpr (by omega)
    rcases x with ⟨st, rf, hd, msg⟩ | e
    · simp only [autoRetryable, Bool.and_eq_true, Bool.not_eq_true'] at hx
      simp only [List.cons_append, gibddAutoLoop, hx.1, hx.2, hne,
        Bool.false_eq_true, if_false, if_true, List.append_eq]
      rw [ih (attempt + 1) (goCalls + 1) status message retryFlag hasData rest
        (fun y hy => hpre y (by simp [hy])) (by simp only [List.length_cons] at hbound; omega) hstop]
      simp only [List.length_cons, Prod.mk.injEq]
      exact ⟨by trivial, by omega⟩
    · simp only [List.cons_append, gibddAutoLoop, hne, Bool.false_eq_true,
        if_false, List.append_eq]
      rw [ih (attempt + 1) (goCalls + 1) status message retryFlag hasData rest
        (fun y hy => hpre y (by simp [hy])) (by simp only [List.length_cons] at hbound; omega) hstop]
      simp only [List.length_cons, Prod.mk.injEq]
      exact ⟨by trivial, by omega⟩

theorem gibddAutoLoop_allRetry :
    ∀ (pre : List SearchOut) (attempt goCalls : Nat) (rest : List SearchOut),
      (∀ x ∈ pre, autoRetryable x = true) →
      attempt + pre.length = 5 → attempt ≤ 4 →
      gibddAutoLoop 4 attempt goCalls (pre ++ rest) =
        (some ("error", "Не удалось решить CAPTCHA после 4 попыток"),
          goCalls + pre.length) := by
  intro pre
  induction pre with
  | nil =>
    intro attempt goCalls rest _ h5 h4
    exfalso
    simp only [List.length_nil] at h5
    omega
  | cons x xs ih =>
    intro attempt goCalls rest hpre h5 h4
    have hx := hpre x (by simp)
    by_cases ha : attempt = 4
    · subst ha
      have hlen0 : xs.length = 0 := by simp only [List.length_cons] at h5; omega
      have hxs : xs = [] := List.eq_nil_of_length_eq_zero hlen0
      subst hxs
      rcases x with ⟨st, rf, hd, msg⟩ | e
      · simp only [autoRetryable, Bool.and_eq_true, Bool.not_eq_true'] at hx
        simp [gibddAutoLoop, hx.1, hx.2]
      · simp [gibddAutoLoop] <;> omega
    · have hne : (attempt == 4) = false := beq_eq_false_iff_ne.mpr ha
      rcases x with ⟨st, rf, hd, msg⟩ | e
      · simp only [autoRetryable, Bool.and_eq_true, Bool.not_eq_true'] at hx
        simp only [List.cons_append, gibddAutoLoop, hx.1, hx.2, hne,
          Bool.false_eq_true, if_false, if_true, List.append_eq]
        rw [ih (attempt + 1) (goCalls + 1) rest
          (fun y hy => hpre y (by simp [hy])) (by simp only [List.length_cons] at h5; omega) (by omega)]
        simp only [List.length_cons, Prod.mk.injEq]
        exact ⟨by trivial, by omega⟩
      · simp only [List.cons_append, gibddAutoLoop, hne, Bool.false_eq_true,
          if_false, List.append_eq]
        rw [ih (attempt + 1) (goCalls + 1) rest
          (fun y hy => hpre y (by simp [hy])) (by simp only [List.length_cons] at h5; omega) (by omega)]
        simp only [List.length_cons, Prod.mk.injEq]
        exact ⟨by trivial, by omega⟩

theorem gibddAutoLoop_goCalls_le :
    ∀ (trace : List SearchOut) (attempt goCalls : Nat), attempt ≤ 4 →
      (gibddAutoLoop 4 attempt goCalls trace).2 ≤ goCalls + (4 - attempt) + 1 := by
  intro trace
  induction trace with
  | nil =>
    intro attempt goCalls _
    simp [gibddAutoLoop] <;> omega
  | cons x xs ih =>
    intro attempt goCalls h4
    rcases x with ⟨st, rf, hd, msg⟩ | e
    · by_cases hs : (st == "success" && hd) = true
      · simp [gibddAutoLoop, hs] <;> omega
      · by_cases hrf : rf = true
        · by_cases ha : attempt = 4
          · subst ha
            simp [gibddAutoLoop, hs, hrf] <;> omega
          · have hne : (attempt == 4) = false := beq_eq_false_iff_ne.mpr ha
            simp only [gibddAutoLoop, hs, hrf, hne, Bool.false_eq_true, if_false,
              if_true]
            exact le_trans (ih (attempt + 1) (goCalls + 1) (by omega)) (by omega)
        · have hrf2 : rf = false := by simpa using hrf
          simp [gibddAutoLoop, hs, hrf2] <;> omega
    · by_cases ha : attempt = 4
      · subst ha
        simp [gibddAutoLoop] <;> omega
      · have hne : (attempt == 4) = false := beq_eq_false_iff_ne.mpr ha
        simp only [gibddAutoLoop, hne, Bool.false_eq_true, if_false]
        exact le_trans (ih (attempt + 1) (goCalls + 1) (by omega)) (by omega)

theorem gibddFinesLoop_stops :
    ∀ (pre : List SearchOut) (attempt pages : Nat) (status message : String)
      (retryFlag hasData : Bool) (rest : List SearchOut),
      (∀ x ∈ pre, finesRetryable x = true) →
      attempt + pre.length ≤ 4 →
      finesStops (.res status retryFlag hasData message) = true →
      gibddFinesLoop 4 attempt pages
          (pre ++ .res status retryFlag hasData message :: rest) =
        (some (status, message), pages + pre.length + 1) := by
  intro pre
  induction pre with
  | nil =>
    intro attempt pages status message retryFlag hasData rest _ _ hstop
    simp only [List.nil_append, List.length_nil, Nat.add_zero]
    by_cases hs : (status == "success") = true
    · simp [gibddFinesLoop, hs] <;> omega
    · have hr : retryFlag = false := by
        simp only [finesStops, hs, Bool.false_or] at hstop
        simpa using hstop
      simp [gibddFinesLoop, hs, hr]
  | cons x xs ih =>
    intro attempt pages status message retryFlag hasData rest hpre hbound hstop
    have hx := hpre x (by simp)
    have hne : (attempt == 4) = false := by
      have h2 : attempt + (xs.length + 1) ≤ 4 := by simpa using hbound
      exact beq_eq_false_iff_ne.mpr (by omega)
    rcases x with ⟨st, rf, hd, msg⟩ | e
    · simp only [finesRetryable, Bool.and_eq_true, Bool.not_eq_true'] at hx
      simp only [List.cons_append, gibddFinesLoop, hx.1, hx.2, hne,
        Bool.false_eq_true, if_false, if_true, List.append_eq]
      rw [ih (attempt + 1) (pages + 1) status message retryFlag hasData rest
        (fun y hy => hpre y (by simp [hy])) (by simp only [List.length_cons] at hbound; omega) hstop]
      simp only [List.length_cons, Prod.mk.injEq]
      exact ⟨by trivial, by omega⟩
    · simp only [List.cons_append, gibddFinesLoop, hne, Bool.false_eq_true,
        if_false, List.append_eq]
      rw [ih (attempt + 1) (pages + 1) status message retryFlag hasData rest
        (fun y hy => hpre y (by simp [hy])) (by simp only [List.length_cons] at hbound; omega) hstop]
      simp only [List.length_cons, Prod.mk.injEq]
      exact ⟨by trivial, by omega⟩

theorem gibddFinesLoop_pages_le :
    ∀ (trace : List SearchOut) (attempt pages : Nat), attempt ≤ 4 →
      (gibddFinesLoop 4 attempt pages trace).2 ≤ pages + (4 - attempt) + 1 := by
  intro trace
  induction trace with
  | nil =>
    intro attempt pages _
    simp [gibddFinesLoop] <;> omega
  | cons x xs ih =>
    intro attempt pages h4
    rcases x with ⟨st, rf, hd, msg⟩ | e
    · by_cases hs : (st == "success") = true
      · simp [gibddFinesLoop, hs] <;> omega
      · by_cases hrf : rf = true
        · by_cases ha : attempt = 4
          · subst ha
            simp [gibddFinesLoop, hs, hrf] <;> omega
          · have hne : (attempt == 4) = false := beq_eq_false_iff_ne.mpr ha
            simp only [gibddFinesLoop, hs, hrf, hne, Bool.false_eq_true,
              if_false, if_true]
            exact le_trans (ih (attempt + 1) (pages + 1) (by omega)) (by omega)
        · have hrf2 : rf = false := by simpa using hrf
          simp [gibddFinesLoop, hs, hrf2] <;> omega
    · by_cases ha : attempt = 4
      · subst ha
        simp [gibddFinesLoop] <;> omega
      · have hne : (attempt == 4) = false := beq_eq_false_iff_ne.mpr ha
        simp only [gibddFinesLoop, hne, Bool.false_eq_true, if_false]
        exact le_trans (ih (attempt + 1) (pages + 1) (by omega)) (by omega)

theorem nalogLoop_rateLimit :
    ∀ (pre : List NalogObs) (attempt used : Nat) (rest : List NalogObs),
      (∀ x ∈ pre, nalogRetryable x = true) →
      attempt + pre.length ≤ 3 →
      nalogLoop 3 attempt used (pre ++ .rateLimited :: rest) =
        (.rateLimitError, used + pre.length + 1) := by
  intro pre
  induction pre with
  | nil =>
    intro attempt used rest _ _
    simp [nalogLoop]
  | cons x xs ih =>
    intro attempt used rest hpre hb
    have hx := hpre x (by simp)
    have hlt : attempt < 3 := by simp only [List.length_cons] at hb; omega
    rcases x with _ | _ | _ | _ | n | e
    · simp only [List.cons_append, nalogLoop, if_pos hlt, List.append_eq]
      rw [ih (attempt + 1) (used + 1) rest (fun y hy => hpre y (by simp [hy]))
        (by simp only [List.length_cons] at hb; omega)]
      simp only [List.length_cons, Prod.mk.injEq]
      exact ⟨by trivial, by omega⟩
    · simp only [List.cons_append, nalogLoop, if_pos hlt, List.append_eq]
      rw [ih (attempt + 1) (used + 1) rest (fun y hy => hpre y (by simp [hy]))
        (by simp only [List.length_cons] at hb; omega)]
      simp only [List.length_cons, Prod.mk.injEq]
      exact ⟨by trivial, by omega⟩
    · simp [nalogRetryable] at hx
    · simp [nalogRetryable] at hx
    · simp [nalogRetryable] at hx
    · simp only [List.cons_append, nalogLoop, if_pos hlt, List.append_eq]
      rw [ih (attempt + 1) (used + 1) rest (fun y hy => hpre y (by simp [hy]))
        (by simp only [List.length_cons] at hb; omega)]
      simp only [List.length_cons, Prod.mk.injEq]
      exact ⟨by trivial, by omega⟩

theorem osagoLoop_rateLimit :
    ∀ (pre : List OsagoObs) (attempt used : Nat) (rest : List OsagoObs),
      (∀ x ∈ pre, osagoRetryable x = true) →
      attempt + pre.length ≤ 3 →
      osagoLoop 3 attempt used (pre ++ .rateLimited :: rest) =
        (.rateLimitError, used + pre.length + 1) := by
  intro pre
  induction pre with
  | nil =>
    intro attempt used rest _ hb
    have hna : ¬(3 < attempt) := by simp only [List.length_nil] at hb; omega
    simp [osagoLoop, hna]
  | cons x xs ih =>
    intro attempt used rest hpre hb
    have hx := hpre x (by simp)
    have hlt : attempt < 3 := by simp only [List.length_cons] at hb; omega
    have hna : ¬(3 < attempt) := by omega
    rcases x with _ | _ | _ | _ | _ | e | e
    · simp [osagoRetryable] at hx
    · simp [osagoRetryable] at hx
    · simp only [List.cons_append, osagoLoop, if_neg hna, List.append_eq]
      rw [ih (attempt + 1) (used + 1) rest (fun y hy => hpre y (by simp [hy]))
        (by simp only [List.length_cons] at hb; omega)]
      simp only [List.length_cons, Prod.mk.injEq]
      exact ⟨by trivial, by omega⟩
    · simp only [List.cons_append, osagoLoop, if_neg hna, List.append_eq]
      rw [ih (attempt + 1) (used + 1) rest (fun y hy => hpre y (by simp [hy]))
        (by simp only [List.length_cons] at hb; omega)]
      simp only [List.length_cons, Prod.mk.injEq]
      exact ⟨by trivial, by omega⟩
    · simp [osagoRetryable] at hx
    · simp only [List.cons_append, osagoLoop, if_neg hna, List.append_eq]
      rw [ih (attempt + 1) (used + 1) rest (fun y hy => hpre y (by simp [hy]))
        (by simp only [List.length_cons] at hb; omega)]
      simp only [List.length_cons, Prod.mk.injEq]
      exact ⟨by trivial, by omega⟩
    · simp only [List.cons_append, osagoLoop, if_neg hna, if_pos hlt,
        List.append_eq]
      rw [ih (attempt + 1) (used + 1) rest (fun y hy => hpre y (by simp [hy]))
        (by simp only [List.length_cons] at hb; omega)]
      simp only [List.length_cons, Prod.mk.injEq]
      exact ⟨by trivial, by omega⟩

theorem gibddAutoLoop_status :
    ∀ (trace : List SearchOut) (attempt goCalls : Nat) (st : String × String),
      (∀ o ∈ trace, statusWellFormed o = true) →
      (gibddAutoLoop 4 attempt goCalls trace).1 = some st →
      st.1 = "success" ∨ st.1 = "error" ∨ st.1 = "no_data" := by
  intro trace
  induction trace with
  | nil =>
    intro attempt goCalls st _ h
    simp [gibddAutoLoop] at h
  | cons x xs ih =>
    intro attempt goCalls st hwf h
    have hx := hwf x (by simp)
    rcases x with ⟨s, rf, hd, msg⟩ | e
    · simp only [statusWellFormed, Bool.or_eq_true, beq_iff_eq] at hx
      by_cases hs : (s == "success" && hd) = true
      · simp only [gibddAutoLoop, hs, if_true] at h
        obtain rfl := Option.some.inj h
        rcases hx with (h1 | h1) | h1 <;> simp [h1]
      · by_cases hrf : rf = true
        · by_cases ha : attempt = 4
          · subst ha
            simp only [gibddAutoLoop, hs, hrf, Bool.false_eq_true, if_false,
              if_true, beq_self_eq_true] at h
            obtain rfl := Option.some.inj h
            simp
          · have hne : (attempt == 4) = false := beq_eq_false_iff_ne.mpr ha
            simp only [gibddAutoLoop, hs, hrf, hne, Bool.false_eq_true,
              if_false, if_true] at h
            exact ih (attempt + 1) (goCalls + 1) st
              (fun y hy => hwf y (by simp [hy])) h
        · have hrf2 : rf = false := by simpa using hrf
          simp only [gibddAutoLoop, hs, hrf2, Bool.false_eq_true, if_false] at h
          obtain rfl := Option.some.inj h
          rcases hx with (h1 | h1) | h1 <;> simp [h1]
    · by_cases ha : attempt = 4
      · subst ha
        simp only [gibddAutoLoop, beq_self_eq_true, if_true] at h
        obtain rfl := Option.some.inj h
        simp
      · have hne : (attempt == 4) = false := beq_eq_false_iff_ne.mpr ha
        simp only [gibddAutoLoop, hne, Bool.false_eq_true, if_false] at h
        exact ih (attempt + 1) (goCalls + 1) st
          (fun y hy => hwf y (by simp [hy])) h

/-! ## Claim theorems -/

/-- C1: in the orchestrator fan-out (`process_single_request` /
`process_excel_row`), a valid 10-or-12-digit tax identifier activates
exactly the three ИНН-keyed sources (`efrsb`, `nalog`, `kad_arbitr`), each
called with that identifier; a valid 17-character VIN activates exactly the
three VIN-keyed sources (`gibdd_auto`, `osago`, `pledge`), each called with
that VIN; and no task is ever created for a source outside the subset
activated by the identifiers present in the query. -/
theorem claim1_fanout_by_identifier (q : Query) :
    (innOk q.inn = true →
      (plannedTasks q).filter (fun t => innServices.contains t.service) =
        [⟨"efrsb", .innP q.inn⟩, ⟨"nalog", .innP q.inn⟩, ⟨"kad_arbitr", .innP q.inn⟩]) ∧
    (vinOk q.vin = true →
      (plannedTasks q).filter (fun t => vinServices.contains t.service) =
        [⟨"gibdd_auto", .vinP q.vin⟩, ⟨"osago", .vinP q.vin⟩, ⟨"pledge", .vinP q.vin⟩]) ∧
    (∀ t ∈ plannedTasks q, t.service ∈ activatedServices q) := by
  refine ⟨fun hinn => ?_, fun hvin => ?_, fun t ht => ?_⟩
  · have hp := innOk_present hinn
    unfold plannedTasks
    rw [hp]
    cases hv : present q.vin <;>
      cases hgs : present q.grz && present q.sts <;>
      rcases hg : pySplit q.grz with _ | ⟨g1, _ | ⟨g2, _ | ⟨g3, gl⟩⟩⟩ <;>
      cases hf : present q.fio <;>
      rcases hff : pySplitOn q.fio ';' with _ | ⟨f1, _ | ⟨f2, _ | ⟨f3, fl⟩⟩⟩ <;>
      rfl
  · have hp := vinOk_present hvin
    unfold plannedTasks
    rw [hp]
    cases hi : present q.inn <;>
      cases hgs : present q.grz && present q.sts <;>
      rcases hg : pySplit q.grz with _ | ⟨g1, _ | ⟨g2, _ | ⟨g3, gl⟩⟩⟩ <;>
      cases hf : present q.fio <;>
      rcases hff : pySplitOn q.fio ';' with _ | ⟨f1, _ | ⟨f2, _ | ⟨f3, fl⟩⟩⟩ <;>
      rfl
  · unfold plannedTasks at ht
    rcases List.mem_append.mp ht with h | h
    · rcases List.mem_append.mp h with h | h
      · rcases List.mem_append.mp h with h | h
        · cases hv : present q.vin
          · rw [hv] at h; simp at h
          · rw [hv] at h
            simp at h
            rcases h with rfl | rfl | rfl <;> simp [activatedServices, hv, vinServices]
        · cases hgs : present q.grz && present q.sts
          · rw [hgs] at h; simp at h
          · rw [hgs] at h
            rcases hg : pySplit q.grz with _ | ⟨g1, _ | ⟨g2, _ | ⟨g3, gl⟩⟩⟩ <;>
              rw [hg] at h <;> simp at h
            subst h
            simp [activatedServices, hgs]
      · cases hi : present q.inn
        · rw [hi] at h; simp at h
        · rw [hi] at h
          simp at h
          rcases h with rfl | rfl | rfl <;> simp [activatedServices, hi, innServices]
    · cases hf : present q.fio
      · rw [hf] at h; simp at h
      · rw [hf] at h
        rcases hff : pySplitOn q.fio ';' with _ | ⟨f1, _ | ⟨f2, _ | ⟨f3, fl⟩⟩⟩ <;>
          rw [hff] at h <;> simp at h <;> subst h <;>
          simp [activatedServices, hf]

/-- Witness for C1 at a concrete query carrying a valid ИНН and VIN. -/
theorem claim1_witness :
    (plannedTasks ⟨"1234567890", "", "JN1TTNJ52U0650947", "", ""⟩).filter
        (fun t => innServices.contains t.service) =
      [⟨"efrsb", .innP "1234567890"⟩, ⟨"nalog", .innP "1234567890"⟩,
       ⟨"kad_arbitr", .innP "1234567890"⟩] ∧
    (plannedTasks ⟨"1234567890", "", "JN1TTNJ52U0650947", "", ""⟩).filter
        (fun t => vinServices.contains t.service) =
      [⟨"gibdd_auto", .vinP "JN1TTNJ52U0650947"⟩, ⟨"osago", .vinP "JN1TTNJ52U0650947"⟩,
       ⟨"pledge", .vinP "JN1TTNJ52U0650947"⟩] :=
  ⟨(claim1_fanout_by_identifier ⟨"1234567890", "", "JN1TTNJ52U0650947", "", ""⟩).1 (by rfl),
   (claim1_fanout_by_identifier ⟨"1234567890", "", "JN1TTNJ52U0650947", "", ""⟩).2.1 (by rfl)⟩

/-- C2 counterexample: the claim also covers a source's call RAISING an
exception.  When the gather captures an exception object, `json.dumps` of
that object raises `TypeError`, aborting record assembly entirely — the
other sources' success results are not recorded and nothing reaches
`save_to_db` (result `none`).  The same fan-out with the first source
merely RETURNING an error dict records every result. -/
theorem claim2_counterexample :
    assemble ⟨"1234567890", "", "", "", ""⟩
        [.exn "aiohttp payload error",
         .ret ⟨some "success", none, none, false, "p1"⟩,
         .ret ⟨some "success", none, none, false, "p2"⟩] = none ∧
    assemble ⟨"1234567890", "", "", "", ""⟩
        [.ret ⟨some "error", some "boom", none, false, ""⟩,
         .ret ⟨some "success", none, none, false, "p1"⟩,
         .ret ⟨some "success", none, none, false, "p2"⟩] =
      some { inn := "1234567890", fio := "", vin := "", sts := "", grz := "",
             gibdd_auto := "", gibdd_fines := "",
             efrsb := encodeDict ⟨some "error", some "boom", none, false, ""⟩,
             nsis := "", reestr_zalogov := "", notariat := "",
             pb_nalog := encodeDict ⟨some "success", none, none, false, "p1"⟩,
             kad_arbitr := encodeDict ⟨some "success", none, none, false, "p2"⟩ } := by
  constructor <;> rfl

/-- C2 amended: whenever every concurrently-requested source call RETURNS a
dict (success, no_data or error alike — no captured exception), the merge
phase succeeds and every requested source's record field holds the
serialization of exactly its own source's outcome, in the fixed positional
order of the fan-out; in particular one source returning an error never
keeps another source's success out of the saved record. -/
theorem claim2_amended_no_cross_blocking (q : Query) (ds : List Dict)
    (hlen : ds.length = (plannedTasks q).length) :
    ∃ r, assemble q (ds.map Outcome.ret) = some r ∧
      (present q.vin = true →
        r.gibdd_auto = encodeDict (ds.getD 0 dummyDict) ∧
        r.nsis = encodeDict (ds.getD 1 dummyDict) ∧
        r.reestr_zalogov = encodeDict (ds.getD 2 dummyDict)) ∧
      (finesActive q = true →
        r.gibdd_fines = encodeDict (ds.getD (vinGroupLen q) dummyDict)) ∧
      (present q.inn = true →
        r.efrsb = encodeDict (ds.getD (vinGroupLen q + finesGroupLen q) dummyDict) ∧
        r.pb_nalog = encodeDict (ds.getD (vinGroupLen q + finesGroupLen q + 1) dummyDict) ∧
        r.kad_arbitr = encodeDict (ds.getD (vinGroupLen q + finesGroupLen q + 2) dummyDict)) ∧
      (present q.fio = true →
        r.notariat =
          encodeDict (ds.getD (vinGroupLen q + finesGroupLen q + innGroupLen q) dummyDict)) := by
  rw [plannedTasks_length] at hlen
  simp only [vinGroupLen, finesGroupLen, innGroupLen, fioGroupLen] at hlen
  cases hv : present q.vin <;> cases hfa : finesActive q <;>
    cases hi : present q.inn <;> cases hf : present q.fio
  · simp [hv, hfa, hi, hf] at hlen
    subst hlen
    simp only [assemble, List.map_cons, List.map_nil, consumeVin_skip hv,
      consumeFines_skip hfa, consumeInn_skip hi,
      consumeFio_skip hf, Option.some_bind, Option.map_some']
    refine ⟨_, rfl, ?_, ?_, ?_, ?_⟩
    all_goals simp [vinGroupLen, finesGroupLen, innGroupLen, hv, hfa, hi, hf]
  · simp [hv, hfa, hi, hf] at hlen
    rcases ds with
      _ | ⟨d1, tl⟩ <;> simp at hlen
    subst hlen
    simp only [assemble, List.map_cons, List.map_nil, consumeVin_skip hv,
      consumeFines_skip hfa, consumeInn_skip hi,
      consumeFio_cons hf, Option.some_bind, Option.map_some']
    refine ⟨_, rfl, ?_, ?_, ?_, ?_⟩
    all_goals simp [vinGroupLen, finesGroupLen, innGroupLen, hv, hfa, hi, hf]
  · simp [hv, hfa, hi, hf] at hlen
    rcases ds with
      _ | ⟨d1, _ | ⟨d2, _ | ⟨d3, tl⟩⟩⟩ <;> simp at hlen
    subst hlen
    simp only [assemble, List.map_cons, List.map_nil, consumeVin_skip hv,
      consumeFines_skip hfa, consumeInn_cons hi,
      consumeFio_skip hf, Option.some_bind, Option.map_some']
    refine ⟨_, rfl, ?_, ?_, ?_, ?_⟩
    all_goals simp [vinGroupLen, finesGroupLen, innGroupLen, hv, hfa, hi, hf]
  · simp [hv, hfa, hi, hf] at hlen
    rcases ds with
      _ | ⟨d1, _ | ⟨d2, _ | ⟨d3, _ | ⟨d4, tl⟩⟩⟩⟩ <;> simp at hlen
    subst hlen
    simp only [assemble, List.map_cons, List.map_nil, consumeVin_skip hv,
      consumeFines_skip hfa, consumeInn_cons hi,
      consumeFio_cons hf, Option.some_bind, Option.map_some']
    refine ⟨_, rfl, ?_, ?_, ?_, ?_⟩
    all_goals simp [vinGroupLen, finesGroupLen, innGroupLen, hv, hfa, hi, hf]
  · simp [hv, hfa, hi, hf] at hlen
    rcases ds with
      _ | ⟨d1, tl⟩ <;> simp at hlen
    subst hlen
    simp only [assemble, List.map_cons, List.map_nil, consumeVin_skip hv,
      consumeFines_cons hfa, consumeInn_skip hi,
      consumeFio_skip hf, Option.some_bind, Option.map_some']
    refine ⟨_, rfl, ?_, ?_, ?_, ?_⟩
    all_goals simp [vinGroupLen, finesGroupLen, innGroupLen, hv, hfa, hi, hf]
  · simp [hv, hfa, hi, hf] at hlen
    rcases ds with
      _ | ⟨d1, _ | ⟨d2, tl⟩⟩ <;> simp at hlen
    subst hlen
    simp only [assemble, List.map_cons, List.map_nil, consumeVin_skip hv,
      consumeFines_cons hfa, consumeInn_skip hi,
      consumeFio_cons hf, Option.some_bind, Option.map_some']
    refine ⟨_, rfl, ?_, ?_, ?_, ?_⟩
    all_goals simp [vinGroupLen, finesGroupLen, innGroupLen, hv, hfa, hi, hf]
  · simp [hv, hfa, hi, hf] at hlen
    rcases ds with
      _ | ⟨d1, _ | ⟨d2, _ | ⟨d3, _ | ⟨d4, tl⟩⟩⟩⟩ <;> simp at hlen
    subst hlen
    simp only [assemble, List.map_cons, List.map_nil, consumeVin_skip hv,
      consumeFines_cons hfa, consumeInn_cons hi,
      consumeFio_skip hf, Option.some_bind, Option.map_some']
    refine ⟨_, rfl, ?_, ?_, ?_, ?_⟩
    all_goals simp [vinGroupLen, finesGroupLen, innGroupLen, hv, hfa, hi, hf]
  · simp [hv, hfa, hi, hf] at hlen
    rcases ds with
      _ | ⟨d1, _ | ⟨d2, _ | ⟨d3, _ | ⟨d4, _ | ⟨d5, tl⟩⟩⟩⟩⟩ <;> simp at hlen
    subst hlen
    simp only [assemble, List.map_cons, List.map_nil, consumeVin_skip hv,
      consumeFines_cons hfa, consumeInn_cons hi,
      consumeFio_cons hf, Option.some_bind, Option.map_some']
    refine ⟨_, rfl, ?_, ?_, ?_, ?_⟩
    all_goals simp [vinGroupLen, finesGroupLen, innGroupLen, hv, hfa, hi, hf]
  · simp [hv, hfa, hi, hf] at hlen
    rcases ds with
      _ | ⟨d1, _ | ⟨d2, _ | ⟨d3, tl⟩⟩⟩ <;> simp at hlen
    subst hlen
    simp only [assemble, List.map_cons, List.map_nil, consumeVin_cons hv,
      consumeFines_skip hfa, consumeInn_skip hi,
      consumeFio_skip hf, Option.some_bind, Option.map_some']
    refine ⟨_, rfl, ?_, ?_, ?_, ?_⟩
    all_goals simp [vinGroupLen, finesGroupLen, innGroupLen, hv, hfa, hi, hf]
  · simp [hv, hfa, hi, hf] at hlen
    rcases ds with
      _ | ⟨d1, _ | ⟨d2, _ | ⟨d3, _ | ⟨d4, tl⟩⟩⟩⟩ <;> simp at hlen
    subst hlen
    simp only [assemble, List.map_cons, List.map_nil, consumeVin_cons hv,
      consumeFines_skip hfa, consumeInn_skip hi,
      consumeFio_cons hf, Option.some_bind, Option.map_some']
    refine ⟨_, rfl, ?_, ?_, ?_, ?_⟩
    all_goals simp [vinGroupLen, finesGroupLen, innGroupLen, hv, hfa, hi, hf]
  · simp [hv, hfa, hi, hf] at hlen
    rcases ds with
      _ | ⟨d1, _ | ⟨d2, _ | ⟨d3, _ | ⟨d4, _ | ⟨d5, _ | ⟨d6, tl⟩⟩⟩⟩⟩⟩ <;> simp at hlen
    subst hlen
    simp only [assemble, List.map_cons, List.map_nil, consumeVin_cons hv,
      consumeFines_skip hfa, consumeInn_cons hi,
      consumeFio_skip hf, Option.some_bind, Option.map_some']
    refine ⟨_, rfl, ?_, ?_, ?_, ?_⟩
    all_goals simp [vinGroupLen, finesGroupLen, innGroupLen, hv, hfa, hi, hf]
  · simp [hv, hfa, hi, hf] at hlen
    rcases ds with
      _ | ⟨d1, _ | ⟨d2, _ | ⟨d3, _ | ⟨d4, _ | ⟨d5, _ | ⟨d6, _ | ⟨d7, tl⟩⟩⟩⟩⟩⟩⟩ <;> simp at hlen
    subst hlen
    simp only [assemble, List.map_cons, List.map_nil, consumeVin_cons hv,
      consumeFines_skip hfa, consumeInn_cons hi,
      consumeFio_cons hf, Option.some_bind, Option.map_some']
    refine ⟨_, rfl, ?_, ?_, ?_, ?_⟩
    all_goals simp [vinGroupLen, finesGroupLen, innGroupLen, hv, hfa, hi, hf]
  · simp [hv, hfa, hi, hf] at hlen
    rcases ds with
      _ | ⟨d1, _ | ⟨d2, _ | ⟨d3, _ | ⟨d4, tl⟩⟩⟩⟩ <;> simp at hlen
    subst hlen
    simp only [assemble, List.map_cons, List.map_nil, consumeVin_cons hv,
      consumeFines_cons hfa, consumeInn_skip hi,
      consumeFio_skip hf, Option.some_bind, Option.map_some']
    refine ⟨_, rfl, ?_, ?_, ?_, ?_⟩
    all_goals simp [vinGroupLen, finesGroupLen, innGroupLen, hv, hfa, hi, hf]
  · simp [hv, hfa, hi, hf] at hlen
    rcases ds with
      _ | ⟨d1, _ | ⟨d2, _ | ⟨d3, _ | ⟨d4, _ | ⟨d5, tl⟩⟩⟩⟩⟩ <;> simp at hlen
    subst hlen
    simp only [assemble, List.map_cons, List.map_nil, consumeVin_cons hv,
      consumeFines_cons hfa, consumeInn_skip hi,
      consumeFio_cons hf, Option.some_bind, Option.map_some']
    refine ⟨_, rfl, ?_, ?_, ?_, ?_⟩
    all_goals simp [vinGroupLen, finesGroupLen, innGroupLen, hv, hfa, hi, hf]
  · simp [hv, hfa, hi, hf] at hlen
    rcases ds with
      _ | ⟨d1, _ | ⟨d2, _ | ⟨d3, _ | ⟨d4, _ | ⟨d5, _ | ⟨d6, _ | ⟨d7, tl⟩⟩⟩⟩⟩⟩⟩ <;> simp at hlen
    subst hlen
    simp only [assemble, List.map_cons, List.map_nil, consumeVin_cons hv,
      consumeFines_cons hfa, consumeInn_cons hi,
      consumeFio_skip hf, Option.some_bind, Option.map_some']
    refine ⟨_, rfl, ?_, ?_, ?_, ?_⟩
    all_goals simp [vinGroupLen, finesGroupLen, innGroupLen, hv, hfa, hi, hf]
  · simp [hv, hfa, hi, hf] at hlen
    rcases ds with
      _ | ⟨d1, _ | ⟨d2, _ | ⟨d3, _ | ⟨d4, _ | ⟨d5, _ | ⟨d6, _ | ⟨d7, _ | ⟨d8, tl⟩⟩⟩⟩⟩⟩⟩⟩ <;> simp at hlen
    subst hlen
    simp only [assemble, List.map_cons, List.map_nil, consumeVin_cons hv,
      consumeFines_cons hfa, consumeInn_cons hi,
      consumeFio_cons hf, Option.some_bind, Option.map_some']
    refine ⟨_, rfl, ?_, ?_, ?_, ?_⟩
    all_goals simp [vinGroupLen, finesGroupLen, innGroupLen, hv, hfa, hi, hf]

/-- Witness for C2 (amended) at a concrete ИНН-only query with one error and
two success outcomes: the error source's field and the success sources'
fields each hold their own serialized outcome. -/
theorem claim2_witness :
    ((assemble ⟨"1234567890", "", "", "", ""⟩
        ([⟨some "error", some "boom", none, false, ""⟩,
          ⟨some "success", none, none, false, "p1"⟩,
          ⟨some "success", none, none, false, "p2"⟩].map Outcome.ret)).getD
      emptyRecord).pb_nalog = encodeDict ⟨some "success", none, none, false, "p1"⟩ := by
  obtain ⟨r, hr, hconc⟩ := claim2_amended_no_cross_blocking
    ⟨"1234567890", "", "", "", ""⟩
    [⟨some "error", some "boom", none, false, ""⟩,
     ⟨some "success", none, none, false, "p1"⟩,
     ⟨some "success", none, none, false, "p2"⟩] (by rfl)
  rw [hr]
  have h3 := (hconc.2.2.1 (by rfl)).2.1
  simpa using h3


/-- C4: no Scrape Result is silently dropped — whenever the merge phase
produces the record that is handed to `save_to_db`, every source that was
requested has a non-empty terminal value in its field: the VIN, ИНН and ФИО
sources hold their serialized outcomes, and `gibdd_fines` holds either its
task's serialized outcome or the explicit ГРЗ-format error placeholder the
orchestrator substituted. -/
theorem claim4_no_silent_drop (q : Query) (rs : List Outcome) (r : Record)
    (h : assemble q rs = some r) :
    (present q.vin = true →
      r.gibdd_auto ≠ "" ∧ r.nsis ≠ "" ∧ r.reestr_zalogov ≠ "") ∧
    (present q.grz = true → present q.sts = true → r.gibdd_fines ≠ "") ∧
    (present q.inn = true →
      r.efrsb ≠ "" ∧ r.pb_nalog ≠ "" ∧ r.kad_arbitr ≠ "") ∧
    (present q.fio = true → r.notariat ≠ "") := by
  unfold assemble at h
  obtain ⟨st4, hbind, hr⟩ := Option.map_eq_some'.mp h
  obtain ⟨st3, hbind2, hfio⟩ := Option.bind_eq_some.mp hbind
  obtain ⟨st2, hbind3, hinn⟩ := Option.bind_eq_some.mp hbind2
  obtain ⟨st1, hvin, hfin⟩ := Option.bind_eq_some.mp hbind3
  subst hr
  have s1 := consumeVin_spec hvin
  have s2 := consumeFines_spec hfin
  have s3 := consumeInn_spec hinn
  have s4 := consumeFio_spec hfio
  refine ⟨?_, ?_, ?_, ?_⟩
  · intro hv
    have h1 := s1.2.2.2.2.2 hv
    exact ⟨by rw [s4.1, s3.1, s2.1]; exact h1.1,
      by rw [s4.2.1, s3.2.1, s2.2.1]; exact h1.2.1,
      by rw [s4.2.2.1, s3.2.2.1, s2.2.2.1]; exact h1.2.2⟩
  · intro hg hs
    by_cases hl2 : ((pySplit q.grz).length == 2) = true
    · have hfa : finesActive q = true := by simp [finesActive, hg, hs, hl2]
      have h2 := s2.2.2.2.2.2.2.2.1 hfa
      rw [s4.2.2.2.1, s3.2.2.2.1]
      exact h2
    · have hfa : finesActive q = false := by
        simp only [finesActive, hg, hs, Bool.true_and]
        simpa using hl2
      have hmal : finesMalformed q = true := by
        simp only [finesMalformed, hg, hs, Bool.true_and]
        simpa [bne] using hl2
      have e : st4.1.gibdd_fines = (initRecord q).gibdd_fines := by
        rw [s4.2.2.2.1, s3.2.2.2.1, s2.2.2.2.2.2.2.2.2 hfa, s1.1]
      rw [e, initRecord_fines_malformed hmal]
      exact encodeDict_ne_empty _
  · intro hi
    have h3 := s3.2.2.2.2.2 hi
    exact ⟨by rw [s4.2.2.2.2.1]; exact h3.1,
      by rw [s4.2.2.2.2.2.1]; exact h3.2.1,
      by rw [s4.2.2.2.2.2.2.1]; exact h3.2.2⟩
  · intro hf
    exact s4.2.2.2.2.2.2.2 hf

/-- Witness for C4 at a concrete ИНН-only query: the saved record has
non-empty values in all three requested fields. -/
theorem claim4_witness :
    ((assemble ⟨"1234567890", "", "", "", ""⟩
          [.ret dummyDict, .ret dummyDict, .ret dummyDict]).getD
        emptyRecord).efrsb ≠ "" ∧
    ((assemble ⟨"1234567890", "", "", "", ""⟩
          [.ret dummyDict, .ret dummyDict, .ret dummyDict]).getD
        emptyRecord).pb_nalog ≠ "" ∧
    ((assemble ⟨"1234567890", "", "", "", ""⟩
          [.ret dummyDict, .ret dummyDict, .ret dummyDict]).getD
        emptyRecord).kad_arbitr ≠ "" :=
  (claim4_no_silent_drop ⟨"1234567890", "", "", "", ""⟩
    [.ret dummyDict, .ret dummyDict, .ret dummyDict]
    ((assemble ⟨"1234567890", "", "", "", ""⟩
        [.ret dummyDict, .ret dummyDict, .ret dummyDict]).getD emptyRecord)
    (by rfl)).2.2.1 (by rfl)

/-- C5 counterexample: re-running a lookup manually for a stored ИНН
overwrites the row (no duplicate), but produces NO field diff for audit
logging — the audit log stays empty even though a source field changed.
The diff only happens on the scheduled-refresh path. -/
theorem claim5_counterexample :
    manualSave ⟨[{ emptyRecord with inn := "1234567890", efrsb := "old" }], []⟩
        { emptyRecord with inn := "1234567890", efrsb := "fresh" } =
      ⟨[{ emptyRecord with inn := "1234567890", efrsb := "fresh" }], []⟩ ∧
    ({ emptyRecord with inn := "1234567890", efrsb := "old" } : Record).efrsb ≠
      ({ emptyRecord with inn := "1234567890", efrsb := "fresh" } : Record).efrsb := by
  constructor
  · rfl
  · decide

/-- C5 amended: re-running a lookup for a stored tax identifier overwrites
the row in place — same row count, same number of rows for that ИНН, and the
stored row afterwards is the fresh record — and the manual path writes no
audit entry; the field-by-field diff against the previously stored value is
produced (and logged) only by the scheduled daily refresh, whose change set
contains exactly the audit fields whose values differ, and which leaves the
store untouched when nothing changed. -/
theorem claim5_amended_upsert_and_scheduled_diff
    (db : List Record) (log : List (String × List (String × String × String)))
    (fresh : Record)
    (h : db.any (fun x => x.inn == fresh.inn) = true) :
    (saveToDb db fresh).length = db.length ∧
    (saveToDb db fresh).countP (fun x => x.inn == fresh.inn) =
      db.countP (fun x => x.inn == fresh.inn) ∧
    getFromDb (saveToDb db fresh) fresh.inn = fresh ∧
    (manualSave ⟨db, log⟩ fresh).log = log ∧
    (manualSave ⟨db, log⟩ fresh).db = saveToDb db fresh ∧
    (∀ f ∈ auditFields,
      ((f, fieldVal (getFromDb db fresh.inn) f, fieldVal fresh f) ∈
          diffChanges (getFromDb db fresh.inn) fresh) ↔
        fieldVal (getFromDb db fresh.inn) f ≠ fieldVal fresh f) ∧
    (diffChanges (getFromDb db fresh.inn) fresh ≠ [] →
      scheduledRefreshStep ⟨db, log⟩ fresh.inn fresh =
        ⟨saveToDb db fresh,
         log ++ [(fresh.inn, diffChanges (getFromDb db fresh.inn) fresh)]⟩) ∧
    (diffChanges (getFromDb db fresh.inn) fresh = [] →
      scheduledRefreshStep ⟨db, log⟩ fresh.inn fresh = ⟨db, log⟩) := by
  refine ⟨?_, ?_, ?_, rfl, rfl, ?_, ?_, ?_⟩
  · unfold saveToDb
    rw [if_pos h]
    simp
  · unfold saveToDb
    rw [if_pos h]
    exact countP_replace db fresh
  · unfold getFromDb saveToDb
    rw [if_pos h, find?_replace db fresh h]
  · intro f hf
    constructor
    · intro hmem
      obtain ⟨x, hx, hxe⟩ := List.mem_filterMap.mp hmem
      by_cases hd : (fieldVal (getFromDb db fresh.inn) x != fieldVal fresh x) = true
      · rw [if_pos hd] at hxe
        have hxf : x = f := congrArg (fun t => t.1) (Option.some.inj hxe)
        subst hxf
        exact bne_iff_ne.mp hd
      · rw [if_neg hd] at hxe
        exact absurd hxe (by simp)
    · intro hne
      exact List.mem_filterMap.mpr ⟨f, hf, by simp [bne_iff_ne, hne]⟩
  · intro hne
    unfold scheduledRefreshStep
    rw [if_pos (by simpa [bne_iff_ne] using hne)]
  · intro he
    unfold scheduledRefreshStep
    rw [if_neg (by simp [he])]

/-- Witness for C5 (amended) at a concrete one-row store. -/
theorem claim5_witness :
    getFromDb
        (saveToDb [{ emptyRecord with inn := "1234567890", efrsb := "old" }]
          { emptyRecord with inn := "1234567890", efrsb := "fresh" })
        "1234567890" =
      { emptyRecord with inn := "1234567890", efrsb := "fresh" } :=
  (claim5_amended_upsert_and_scheduled_diff
    [{ emptyRecord with inn := "1234567890", efrsb := "old" }] []
    { emptyRecord with inn := "1234567890", efrsb := "fresh" } (by rfl)).2.2.1

/-- C7: a valid submission (manual, or one Excel row) arriving when the work
queue already holds 10 requests is rejected immediately with the explicit
queue-full reply and the queue is left unchanged (nothing is silently
dropped or queued, and the caller is not blocked); when the queue holds
fewer than 10, the submission is enqueued. -/
theorem claim7_queue_admission (queue : List QueuedReq) (d row : InputData)
    (hd : (validateInput d).1 = true) (hinn : optPresent d.inn = true)
    (hrow : (validateInput row).1 = true) :
    (queue.length ≥ 10 →
      processCollectedInput queue d = (queue, .queueFull) ∧
      processExcelSubmit queue row = (queue, .queueFull)) ∧
    (queue.length < 10 →
      processCollectedInput queue d = (queue ++ [⟨d, false⟩], .accepted (queue.length + 1)) ∧
      processExcelSubmit queue row = (queue ++ [⟨row, true⟩], .enqueued (queue.length + 1))) := by
  rcases h : validateInput d with ⟨bd, md⟩
  rcases h2 : validateInput row with ⟨br, mr⟩
  rw [h] at hd
  rw [h2] at hrow
  simp at hd hrow
  subst hd
  subst hrow
  constructor
  · intro hq
    constructor
    · simp [processCollectedInput, h, hinn, hq]
    · simp [processExcelSubmit, h2, hq]
  · intro hq
    have hq2 : ¬queue.length ≥ 10 := by omega
    constructor
    · simp [processCollectedInput, h, hinn, hq2]
    · simp [processExcelSubmit, h2, hq2]

/-- Witness for C7: an 11-th submission against a queue of 10 is rejected
with the queue-full reply, and the same submission against an empty queue
is enqueued. -/
theorem claim7_witness :
    (processCollectedInput
        (List.replicate 10 ⟨⟨some "1234567890", none, none, none, none⟩, false⟩)
        ⟨some "1234567890", none, none, none, none⟩ =
      (List.replicate 10 ⟨⟨some "1234567890", none, none, none, none⟩, false⟩, .queueFull)) ∧
    (processCollectedInput [] ⟨some "1234567890", none, none, none, none⟩ =
      ([⟨⟨some "1234567890", none, none, none, none⟩, false⟩], .accepted 1)) :=
  ⟨((claim7_queue_admission
      (List.replicate 10 ⟨⟨some "1234567890", none, none, none, none⟩, false⟩)
      ⟨some "1234567890", none, none, none, none⟩
      ⟨some "1234567890", none, none, none, none⟩
      (by rfl) (by rfl) (by rfl)).1 (by simp)).1,
   ((claim7_queue_admission [] ⟨some "1234567890", none, none, none, none⟩
      ⟨some "1234567890", none, none, none, none⟩
      (by rfl) (by rfl) (by rfl)).2 (by simp)).1⟩

/-- C10 counterexample: the claim says a lookup may be submitted with any
subset of identifiers and that a query missing every identifier yields an
all-unrequested record rather than a rejection.  In the code the manual
path rejects any submission without ИНН (here: a well-formed VIN-only
query), and an Excel row with every field blank fails validation. -/
theorem claim10_counterexample :
    processCollectedInput [] ⟨none, none, some "JN1TTNJ52U0650947", none, none⟩ =
      ([], .innRequired) ∧
    (validateInput (excelRowData "" "" "" "" "")).1 = false := by
  constructor <;> rfl

/-- C10 amended: at the orchestrator core no identifier is mandatory — a
query with no identifiers creates zero tasks and an all-empty record — but
at submission the tax identifier IS mandatory on the manual path (a valid
submission without ИНН is rejected with an explicit error and nothing is
enqueued), and an Excel row passes validation only when all five fields are
well-formed. -/
theorem claim10_amended_inn_mandatory :
    (∀ (queue : List QueuedReq) (d : InputData),
      (validateInput d).1 = true → optPresent d.inn = false →
      processCollectedInput queue d = (queue, .innRequired)) ∧
    (∀ inn fio vin sts grz : String,
      (validateInput (excelRowData inn fio vin sts grz)).1 = true →
      innOk inn = true ∧ fioOk fio = true ∧ vinOk vin = true ∧
        stsOk sts = true ∧ grzOk grz = true) ∧
    plannedTasks ⟨"", "", "", "", ""⟩ = [] ∧
    assemble ⟨"", "", "", "", ""⟩ [] = some (initRecord ⟨"", "", "", "", ""⟩) ∧
    (∀ f ∈ auditFields, fieldVal (initRecord ⟨"", "", "", "", ""⟩) f = "") := by
  refine ⟨?_, ?_, rfl, rfl, ?_⟩
  · intro queue d hval hinn
    rcases h : validateInput d with ⟨b, m⟩
    rw [h] at hval
    simp at hval
    subst hval
    simp [processCollectedInput, h, hinn]
  · intro inn fio vin sts grz h
    by_cases h1 : innOk inn = true <;>
      by_cases h2 : fioOk fio = true <;>
      by_cases h3 : vinOk vin = true <;>
      by_cases h4 : stsOk sts = true <;>
      by_cases h5 : grzOk grz = true <;>
      simp [validateInput, excelRowData, checkField, h1, h2, h3, h4, h5] at h ⊢
  · intro f hf
    fin_cases hf <;> rfl

/-- Witness for C10 (amended): a valid ФИО-only submission is rejected with
the ИНН-required reply. -/
theorem claim10_witness :
    processCollectedInput [] ⟨none, some "Иванов Иван", none, none, none⟩ =
      ([], .innRequired) :=
  claim10_amended_inn_mandatory.1 [] ⟨none, some "Иванов Иван", none, none, none⟩
    (by rfl) (by rfl)

/-- C3 counterexample: the claim quantifies over EVERY service call, with a
90-second ceiling for ordinary sources.  But `fetch_service_data` only
treats the "still processing" sentinel specially for `gibdd_auto` /
`gibdd_fines`: an ordinary source (here `efrsb`) answering with the
success-shaped sentinel and then the genuine result has the SENTINEL
returned as its final answer after exactly one request — the orchestrator
never re-issues the call to observe the genuine success. -/
theorem claim3_counterexample :
    fetchServiceData "efrsb"
        [.ok ⟨some "success", none, some sentinelText, false, ""⟩ 0,
         .ok ⟨some "success", none, none, false, "real"⟩ 0] =
      ⟨.final ⟨some "success", none, some sentinelText, false, ""⟩, 1, 0⟩ := by
  rfl

/-- C3 amended, for the two asynchronous services (`gibdd_auto`,
`gibdd_fines`), the only ones whose sentinel is re-polled: a run of N
sentinel responses followed by a genuine success is re-issued at the fixed
10-second poll interval exactly enough times to observe the success (N+1
requests), provided each poll starts below the total ceiling
`timeout × max_attempts`; once the elapsed clock reaches that ceiling at a
sentinel, the call stops immediately with the timeout error.  The ceiling
is 360 s for the two asynchronous services; ordinary sources (per-attempt
timeout 30 s, ceiling 90 s) never enter the sentinel-poll path at all. -/
theorem claim3_amended_sentinel_polling :
    (∀ (svc : String) (sens : List (Dict × Nat)) (fin : Dict) (fdur : Nat),
      svc = "gibdd_auto" ∨ svc = "gibdd_fines" →
      (∀ p ∈ sens, p.1.dataField = some sentinelText) →
      fin.status = some "success" → fin.dataField ≠ some sentinelText →
      pollWithinBudget (perAttemptTimeout svc * 3) 0 sens = true →
      fetchServiceData svc
          (sens.map (fun p => HttpEvent.ok p.1 p.2) ++ [HttpEvent.ok fin fdur]) =
        ⟨.final fin, sens.length + 1, pollClock 0 sens + fdur⟩) ∧
    (∀ (svc : String) (sens : List (Dict × Nat)) (p : Dict × Nat)
        (rest : List HttpEvent),
      svc = "gibdd_auto" ∨ svc = "gibdd_fines" →
      (∀ x ∈ sens, x.1.dataField = some sentinelText) →
      p.1.dataField = some sentinelText →
      pollWithinBudget (perAttemptTimeout svc * 3) 0 sens = true →
      perAttemptTimeout svc * 3 ≤ pollClock 0 sens + p.2 →
      fetchServiceData svc
          (sens.map (fun x => HttpEvent.ok x.1 x.2) ++ HttpEvent.ok p.1 p.2 :: rest) =
        ⟨.orchError ("Превышен таймаут " ++ toString (perAttemptTimeout svc * 3) ++ " секунд"),
          sens.length + 1, pollClock 0 sens + p.2⟩) ∧
    perAttemptTimeout "gibdd_auto" * 3 = 360 ∧
    perAttemptTimeout "gibdd_fines" * 3 = 360 ∧
    perAttemptTimeout "efrsb" * 3 = 90 := by
  refine ⟨?_, ?_, rfl, rfl, rfl⟩
  · rintro svc sens fin fdur (rfl | rfl) hsen hfs hfd hbud
    · unfold fetchServiceData
      rw [if_pos (by decide)]
      simpa using
        fetchLoop_sentinel_run "gibdd_auto" (by decide) _ fin fdur hfs hfd sens
          1 0 0 hsen hbud
    · unfold fetchServiceData
      rw [if_pos (by decide)]
      simpa using
        fetchLoop_sentinel_run "gibdd_fines" (by decide) _ fin fdur hfs hfd sens
          1 0 0 hsen hbud
  · rintro svc sens p rest (rfl | rfl) hsen hp hbud htime
    · unfold fetchServiceData
      rw [if_pos (by decide)]
      simpa using
        fetchLoop_sentinel_timeout "gibdd_auto" (by decide) _ p rest hp sens
          1 0 0 hsen hbud htime
    · unfold fetchServiceData
      rw [if_pos (by decide)]
      simpa using
        fetchLoop_sentinel_timeout "gibdd_fines" (by decide) _ p rest hp sens
          1 0 0 hsen hbud htime

/-- Witness for C3 (amended): one sentinel then the genuine success against
`gibdd_fines` — two requests, ten seconds of poll wait, and the genuine
success returned. -/
theorem claim3_witness :
    fetchServiceData "gibdd_fines"
        ([((⟨some "success", none, some sentinelText, false, ""⟩ : Dict), 0)].map
            (fun p => HttpEvent.ok p.1 p.2) ++
          [HttpEvent.ok ⟨some "success", none, none, false, "real"⟩ 0]) =
      ⟨.final ⟨some "success", none, none, false, "real"⟩, 2, 10⟩ := by
  have h := claim3_amended_sentinel_polling.1 "gibdd_fines"
    [((⟨some "success", none, some sentinelText, false, ""⟩ : Dict), 0)]
    ⟨some "success", none, none, false, "real"⟩ 0 (Or.inr rfl)
    (by simp) rfl (by simp) (by decide)
  simpa [pollClock] using h

/-- C6 counterexample: four retryable (CAPTCHA-type) failures drive
`get_gibdd_info` through all 4 outer attempts — four `page.goto` reloads and
the terminal error — yet only ONE page (and one browser) is ever created:
the loop re-navigates the same page instead of discarding and recreating
the page/browser on each retry, as the claim states. -/
theorem claim6_counterexample :
    getGibddInfo "JN1TTNJ52U0650947"
        [.res "error" true false "Не удалось решить CAPTCHA",
         .res "error" true false "Не удалось решить CAPTCHA",
         .res "error" true false "Не удалось решить CAPTCHA",
         .res "error" true false "Не удалось решить CAPTCHA"] =
      ⟨some ("error", "Не удалось решить CAPTCHA после 4 попыток"), 4, 1, 1⟩ ∧
    (getGibddInfo "JN1TTNJ52U0650947"
        [.res "error" true false "Не удалось решить CAPTCHA",
         .res "error" true false "Не удалось решить CAPTCHA",
         .res "error" true false "Не удалось решить CAPTCHA",
         .res "error" true false "Не удалось решить CAPTCHA"]).pagesCreated ≠
      (getGibddInfo "JN1TTNJ52U0650947"
        [.res "error" true false "Не удалось решить CAPTCHA",
         .res "error" true false "Не удалось решить CAPTCHA",
         .res "error" true false "Не удалось решить CAPTCHA",
         .res "error" true false "Не удалось решить CAPTCHA"]).gotoCalls := by
  constructor
  · rfl
  · decide

/-- C6 amended: each ГИБДД scraper validates its identifiers before any
browser work (a malformed identifier returns at once with zero attempts and
zero pages); the outer loop re-runs the navigate-through-extract sequence on
retryable failures up to 4 times, a non-retryable result stops it at once
with that result, four retryable failures surface the terminal CAPTCHA
error, and at most 4 page loads ever happen.  However the page/browser is
NOT recreated per retry: `get_gibdd_info` creates one browser and one page
for all attempts (re-navigating the same page), and `get_fines_info` opens
a fresh page per attempt inside one browser. -/
theorem claim6_amended_outer_retry :
    (∀ vin trace,
      (vin.length == 17 && present vin && vin.toList.all Char.isAlphanum) = false →
      getGibddInfo vin trace = ⟨some ("error", "Недопустимый VIN"), 0, 0, 0⟩) ∧
    (∀ (pre : List SearchOut) (status message : String) (retryFlag hasData : Bool)
        (rest : List SearchOut),
      (∀ x ∈ pre, autoRetryable x = true) → pre.length ≤ 3 →
      autoStops (.res status retryFlag hasData message) = true →
      gibddAutoLoop 4 1 0 (pre ++ .res status retryFlag hasData message :: rest) =
        (some (status, message), pre.length + 1)) ∧
    (∀ (pre rest : List SearchOut),
      (∀ x ∈ pre, autoRetryable x = true) → pre.length = 4 →
      gibddAutoLoop 4 1 0 (pre ++ rest) =
        (some ("error", "Не удалось решить CAPTCHA после 4 попыток"), 4)) ∧
    (∀ vin trace, (getGibddInfo vin trace).gotoCalls ≤ 4 ∧
      (getGibddInfo vin trace).pagesCreated ≤ 1 ∧
      (getGibddInfo vin trace).browsersLaunched ≤ 1) ∧
    (∀ (pre : List SearchOut) (status message : String) (retryFlag hasData : Bool)
        (rest : List SearchOut),
      (∀ x ∈ pre, finesRetryable x = true) → pre.length ≤ 3 →
      finesStops (.res status retryFlag hasData message) = true →
      gibddFinesLoop 4 1 0 (pre ++ .res status retryFlag hasData message :: rest) =
        (some (status, message), pre.length + 1)) ∧
    (∀ regnum regreg stsnum trace,
      (getFinesInfo regnum regreg stsnum trace).pagesCreated ≤ 4 ∧
      (getFinesInfo regnum regreg stsnum trace).browsersLaunched ≤ 1) := by
  refine ⟨?_, ?_, ?_, ?_, ?_, ?_⟩
  · intro vin trace hbad
    unfold getGibddInfo
    rw [if_pos (by rw [hbad]; rfl)]
  · intro pre status message retryFlag hasData rest hpre hlen hstop
    simpa using
      gibddAutoLoop_stops pre 1 0 status message retryFlag hasData rest hpre
        (by omega) hstop
  · intro pre rest hpre hlen
    simpa [hlen] using
      gibddAutoLoop_allRetry pre 1 0 rest hpre (by omega) (by omega)
  · intro vin trace
    unfold getGibddInfo
    by_cases hb :
        (vin.length == 17 && present vin && vin.toList.all Char.isAlphanum) = true
    · rw [if_neg (by rw [hb]; simp)]
      rcases he : gibddAutoLoop 4 1 0 trace with ⟨r, gcs⟩
      have hle := gibddAutoLoop_goCalls_le trace 1 0 (by omega)
      rw [he] at hle
      simp only at hle
      exact ⟨by simpa using hle, by simp, by simp⟩
    · rw [if_pos (by simp only [Bool.not_eq_true] at hb; rw [hb]; rfl)]
      exact ⟨by simp, by simp, by simp⟩
  · intro pre status message retryFlag hasData rest hpre hlen hstop
    simpa using
      gibddFinesLoop_stops pre 1 0 status message retryFlag hasData rest hpre
        (by omega) hstop
  · intro regnum regreg stsnum trace
    unfold getFinesInfo
    by_cases h1 : regnumOk regnum = true
    · rw [if_neg (by rw [h1]; simp)]
      by_cases h2 : regregOk regreg = true
      · rw [if_neg (by rw [h2]; simp)]
        by_cases h3 : stsOk stsnum = true
        · rw [if_neg (by rw [h3]; simp)]
          rcases he : gibddFinesLoop 4 1 0 trace with ⟨r, pgs⟩
          have hle := gibddFinesLoop_pages_le trace 1 0 (by omega)
          rw [he] at hle
          simp only at hle
          exact ⟨by simpa using hle, by simp⟩
        · rw [if_pos (by simp only [Bool.not_eq_true] at h3; rw [h3]; rfl)]
          exact ⟨by simp, by simp⟩
      · rw [if_pos (by simp only [Bool.not_eq_true] at h2; rw [h2]; rfl)]
        exact ⟨by simp, by simp⟩
    · rw [if_pos (by simp only [Bool.not_eq_true] at h1; rw [h1]; rfl)]
      exact ⟨by simp, by simp⟩

/-- Witness for C6 (amended): one retryable CAPTCHA failure followed by a
confirmed no-data result stops the loop at once — two attempts, no further
retries. -/
theorem claim6_witness :
    gibddAutoLoop 4 1 0
        [.res "error" true false "Не удалось решить CAPTCHA",
         .res "no_data" false false "История регистрации для этого VIN не найдена"] =
      (some ("no_data", "История регистрации для этого VIN не найдена"), 2) :=
  claim6_amended_outer_retry.2.1
    [.res "error" true false "Не удалось решить CAPTCHA"]
    "no_data" "История регистрации для этого VIN не найдена" false false []
    (by simp [autoRetryable]) (by simp) (by simp [autoStops])

/-- C8: the rate-limit error is surfaced immediately and never retried —
the pb.nalog scraper returns it at once from whichever attempt observes it
(no further attempt is made), the ОСАГО scraper's per-attempt check
returns it with `can_retry = False` so its loop stops at once, an invalid
ИНН is answered 400 by the gateway before any scrape attempt, and the
orchestrator's own HTTP retry layer returns any error-status body at the
first response without retrying. -/
theorem claim8_rate_limit_no_retry :
    (∀ (pre rest : List NalogObs),
      (∀ x ∈ pre, nalogRetryable x = true) → pre.length ≤ 2 →
      getInfoNalog (pre ++ .rateLimited :: rest) =
        (.rateLimitError, pre.length + 1)) ∧
    (∀ (pre rest : List OsagoObs),
      (∀ x ∈ pre, osagoRetryable x = true) → pre.length ≤ 2 →
      getInfoOsago (pre ++ .rateLimited :: rest) =
        (.rateLimitError, pre.length + 1)) ∧
    (∀ (inn : Option String) (trace : List NalogObs),
      nalogEndpointInnOk inn = false → nalogEndpoint inn trace = ⟨400, 0, none⟩) ∧
    (∀ (d : Dict) (dur : Nat) (rest : List HttpEvent), isFinalStatus d = true →
      fetchServiceData "nalog" (.ok d dur :: rest) = ⟨.final d, 1, dur⟩) := by
  refine ⟨?_, ?_, ?_, ?_⟩
  · intro pre rest hpre hlen
    simpa [getInfoNalog] using nalogLoop_rateLimit pre 1 0 rest hpre (by omega)
  · intro pre rest hpre hlen
    simpa [getInfoOsago] using osagoLoop_rateLimit pre 1 0 rest hpre (by omega)
  · intro inn trace hbad
    simp [nalogEndpoint, hbad]
  · intro d dur rest hfin
    unfold fetchServiceData
    rw [if_pos (by decide)]
    simp [fetchLoop, hfin]

/-- Witness for C8: a rate-limit alert on the very first attempt of either
scraper loop is terminal after exactly one attempt. -/
theorem claim8_witness :
    getInfoNalog [NalogObs.rateLimited] = (.rateLimitError, 1) ∧
    getInfoOsago [OsagoObs.rateLimited] = (.rateLimitError, 1) :=
  ⟨claim8_rate_limit_no_retry.1 [] [] (by simp) (by simp),
   claim8_rate_limit_no_retry.2.1 [] [] (by simp) (by simp)⟩

/-- C9 counterexample: the claim requires every gateway response body to be
JSON with a `status` field among success/no_data/error.  The probate
gateway's malformed-input reply is HTTP 400 with the body keyed `error` and
NO `status` field (its 500 reply has the same shape). -/
theorem claim9_counterexample :
    probateEndpoint ⟨none, none, []⟩ (.ok [("status", "error")]) =
      (400, [("error", "Не указаны имя и дата рождения или список дел")]) ∧
    hasKey [("error", "Не указаны имя и дата рождения или список дел")]
      "status" = false := by
  constructor <;> rfl

/-- C9 amended: every probate-gateway response is structured JSON with code
200, 400 or 500, and every non-200 body carries an `error` key — but no
`status` key; the valid single-case path returns the scraper's JSON (which
carries `status`) verbatim with 200.  The ГИБДД gateway's JSON bodies always
carry a `status` key — the scraper's own status (one of
success/error/no_data whenever the attempts are well-formed) or the 400
validation error — but the handler has no exception guard and the scraper's
browser setup runs outside any try/except, so on a valid VIN an unhandled
exception yields Flask's default 500 answer with no JSON body at all. -/
theorem claim9_amended_gateway_json :
    (∀ (req : ProbateReq) (ev : ProbateEval),
      (probateEndpoint req ev).1 = 200 ∨ (probateEndpoint req ev).1 = 400 ∨
        (probateEndpoint req ev).1 = 500) ∧
    (∀ (req : ProbateReq) (ev : ProbateEval), (probateEndpoint req ev).1 ≠ 200 →
      hasKey (probateEndpoint req ev).2 "error" = true ∧
      hasKey (probateEndpoint req ev).2 "status" = false) ∧
    (∀ (req : ProbateReq) (body : List (String × String)),
      optPresent req.name = true → optPresent req.birthDate = true →
      probateNameOk (req.name.getD "") = true →
      probateBdOk (req.birthDate.getD "") = true →
      probateEndpoint req (.ok body) = (200, body)) ∧
    (∀ (vin : Option String) (d : GibddDispatch) (b : List (String × String)),
      (gibddEndpoint vin d).2 = some b → hasKey b "status" = true) ∧
    (∀ (vin : Option String) (s m : String) (b : List (String × String)),
      (gibddEndpoint vin (.returned s m)).2 = some b →
      keyVal b "status" = some s ∨ keyVal b "status" = some "error") ∧
    (∀ (vin : Option String),
      (optPresent vin && (vin.getD "").length == 17 &&
        (vin.getD "").toList.all Char.isAlphanum) = true →
      gibddEndpoint vin .raisedUnhandled = (500, none)) ∧
    (∀ (vin : String) (trace : List SearchOut) (st : String × String),
      (∀ o ∈ trace, statusWellFormed o = true) →
      (getGibddInfo vin trace).result = some st →
      st.1 = "success" ∨ st.1 = "error" ∨ st.1 = "no_data") := by
  refine ⟨?_, ?_, ?_, ?_, ?_, ?_, ?_⟩
  · intro req ev
    unfold probateEndpoint
    by_cases h1 : (optPresent req.name && optPresent req.birthDate &&
        probateNameOk (req.name.getD "") && probateBdOk (req.birthDate.getD "")) = true
    · rw [if_pos h1]
      cases ev <;> simp
    · rw [if_neg h1]
      by_cases h2 : (req.cases != []) = true
      · rw [if_pos h2]
        by_cases h3 : (req.cases.any (fun c =>
            !(optPresent c.1 && optPresent c.2 &&
              probateNameOk (c.1.getD "") && probateBdOk (c.2.getD "")))) = true
        · rw [if_pos h3]
          simp
        · rw [if_neg h3]
          cases ev <;> simp
      · rw [if_neg h2]
        simp
  · intro req ev
    unfold probateEndpoint
    by_cases h1 : (optPresent req.name && optPresent req.birthDate &&
        probateNameOk (req.name.getD "") && probateBdOk (req.birthDate.getD "")) = true
    · rw [if_pos h1]
      cases ev <;> simp [hasKey]
    · rw [if_neg h1]
      by_cases h2 : (req.cases != []) = true
      · rw [if_pos h2]
        by_cases h3 : (req.cases.any (fun c =>
            !(optPresent c.1 && optPresent c.2 &&
              probateNameOk (c.1.getD "") && probateBdOk (c.2.getD "")))) = true
        · rw [if_pos h3]
          simp [hasKey]
        · rw [if_neg h3]
          cases ev <;> simp [hasKey]
      · rw [if_neg h2]
        simp [hasKey]
  · intro req body hn hb hnk hbk
    unfold probateEndpoint
    rw [if_pos (by simp [hn, hb, hnk, hbk])]
  · intro vin d b hb
    unfold gibddEndpoint at hb
    by_cases h1 : (optPresent vin && (vin.getD "").length == 17 &&
        (vin.getD "").toList.all Char.isAlphanum) = true
    · rw [if_neg (by rw [h1]; simp)] at hb
      cases d with
      | returned s m =>
        simp only at hb
        obtain rfl := Option.some.inj hb
        simp [hasKey]
      | raisedUnhandled => simp at hb
    · rw [if_pos (by simp only [Bool.not_eq_true] at h1; rw [h1]; rfl)] at hb
      obtain rfl := Option.some.inj hb
      simp [hasKey]
  · intro vin s m b hb
    unfold gibddEndpoint at hb
    by_cases h1 : (optPresent vin && (vin.getD "").length == 17 &&
        (vin.getD "").toList.all Char.isAlphanum) = true
    · rw [if_neg (by rw [h1]; simp)] at hb
      simp only at hb
      obtain rfl := Option.some.inj hb
      left
      rfl
    · rw [if_pos (by simp only [Bool.not_eq_true] at h1; rw [h1]; rfl)] at hb
      obtain rfl := Option.some.inj hb
      right
      rfl
  · intro vin hv
    unfold gibddEndpoint
    rw [if_neg (by rw [hv]; simp)]
  · intro vin trace st hwf h
    unfold getGibddInfo at h
    by_cases hb :
        (vin.length == 17 && present vin && vin.toList.all Char.isAlphanum) = true
    · rw [if_neg (by rw [hb]; simp)] at h
      rcases he : gibddAutoLoop 4 1 0 trace with ⟨r, gcs⟩
      rw [he] at h
      simp only at h
      exact gibddAutoLoop_status trace 1 0 st hwf (by rw [he]; exact h)
    · rw [if_pos (by simp only [Bool.not_eq_true] at hb; rw [hb]; rfl)] at h
      simp only at h
      obtain rfl := Option.some.inj h
      simp

/-- Witness for C9 (amended): a valid single-case probate request returns
the scraper's status-carrying JSON verbatim with HTTP 200, and an unhandled
exception while scraping a valid VIN yields the ГИБДД gateway's 500 answer
with no JSON body. -/
theorem claim9_witness :
    probateEndpoint ⟨some "Иванов Иван", some "01.01.1970", []⟩
        (.ok [("status", "success")]) = (200, [("status", "success")]) ∧
    gibddEndpoint (some "XTA210530V1079141") .raisedUnhandled = (500, none) :=
  ⟨claim9_amended_gateway_json.2.2.1 ⟨some "Иванов Иван", some "01.01.1970", []⟩
      [("status", "success")] (by rfl) (by rfl) (by rfl) (by rfl),
   claim9_amended_gateway_json.2.2.2.2.2.1 (some "XTA210530V1079141") (by rfl)⟩

end SberGenAI
